import Mathlib

set_option maxRecDepth 8000

/-!
Verification development for the parcel edge-classification engine and its
viewport spatial index.  Numbers are modelled as exact rationals (`ℚ`); the
geodesic primitives supplied by the external turf library (distance, bearing,
point-to-segment distance, polygon area) are abstracted as a `Geo` parameter,
while every function defined in the repository itself is translated directly.
-/

/-! ## JavaScript-style helpers -/

/-- Truncation toward zero, as JavaScript coerces for the `%` operator. -/
def qTrunc (q : ℚ) : ℤ := if 0 ≤ q then ⌊q⌋ else ⌈q⌉

/-- JavaScript remainder `a % n` (sign follows the dividend). -/
def jsMod (a n : ℚ) : ℚ := a - n * (qTrunc (a / n) : ℚ)

/-- Port of `parallelOrientationDiffDeg`: normalizes both bearings to
[0,360), takes the absolute difference, wraps to at most 180, then folds to
at most 90. -/
def parallelOrientationDiffDeg (a b : ℚ) : ℚ :=
  let aNorm := jsMod (jsMod a 360 + 360) 360
  let bNorm := jsMod (jsMod b 360 + 360) 360
  let rawDiff := |aNorm - bNorm|
  let wrappedDiff := if rawDiff > 180 then 360 - rawDiff else rawDiff
  if wrappedDiff > 90 then 180 - wrappedDiff else wrappedDiff

/-! ## Character and string helpers

The source relies on JavaScript string methods and word-boundary regular
expressions.  They are modelled on `List Char`; `\w` is ASCII alphanumeric or
underscore, as in JavaScript regexes. -/

/-- Word character for `\b` boundaries: `[A-Za-z0-9_]`. -/
def isWordChar (c : Char) : Bool := c.isAlphanum || c == '_'

/-- A word boundary holds against a missing neighbour or a non-word char. -/
def boundaryOk : Option Char → Bool
  | none => true
  | some c => !(isWordChar c)

/-- One step of global word-bounded replacement (`.replace(/\bw\b/g, repl)`).
The previous original character is carried for the left-boundary test; after
a match scanning resumes past the matched text, as a JS global regex does. -/
def replaceWordAux (w repl : List Char) : Option Char → List Char → List Char
  | _, [] => []
  | prev, c :: rest =>
    if h : w ≠ [] ∧ (boundaryOk prev &&
        w.isPrefixOf (c :: rest) &&
        boundaryOk ((c :: rest).drop w.length).head?) = true then
      repl ++ replaceWordAux w repl (some (w.getLast h.1)) ((c :: rest).drop w.length)
    else
      c :: replaceWordAux w repl (some c) rest
termination_by _ cs => cs.length
decreasing_by
  · have hw : 0 < w.length := List.length_pos.mpr h.1
    simp only [List.length_drop, List.length_cons]
    omega
  · simp only [List.length_cons]
    omega

/-- Replace every word-bounded occurrence of `w` by `repl`. -/
def replaceWord (w repl : String) (cs : List Char) : List Char :=
  replaceWordAux w.data repl.data none cs

/-- Test for a word-bounded occurrence (`/\bw\b/.test(s)`). -/
def containsWordAux (w : List Char) : Option Char → List Char → Bool
  | _, [] => false
  | prev, c :: rest =>
    (boundaryOk prev && w.isPrefixOf (c :: rest) &&
      boundaryOk ((c :: rest).drop w.length).head?)
    || containsWordAux w (some c) rest

/-- String-level word-bounded containment test. -/
def containsWord (w s : String) : Bool := containsWordAux w.data none s.data

/-- Plain substring containment (`/w/.test(s)` for a literal `w`). -/
def containsSubAux (w : List Char) : List Char → Bool
  | [] => w.isPrefixOf []
  | c :: rest => w.isPrefixOf (c :: rest) || containsSubAux w rest

/-- String-level substring containment test. -/
def containsSub (w s : String) : Bool := containsSubAux w.data s.data

/-- Containment of `a` then optionally one whitespace/underscore/hyphen char
then `b`, modelling regex fragments such as `bike[\s_-]?lane`. -/
def isSepChar (c : Char) : Bool := c.isWhitespace || c == '_' || c == '-'

/-- Scanner for `a[\s_-]?b` occurrences. -/
def containsSepPairAux (a b : List Char) : List Char → Bool
  | [] => false
  | c :: rest =>
    (a.isPrefixOf (c :: rest) &&
      (b.isPrefixOf ((c :: rest).drop a.length) ||
        (match ((c :: rest).drop a.length) with
          | [] => false
          | d :: r2 => isSepChar d && b.isPrefixOf r2)))
    || containsSepPairAux a b rest

/-- String-level `a[\s_-]?b` containment. -/
def containsSepPair (a b s : String) : Bool := containsSepPairAux a.data b.data s.data

/-- Split on runs of whitespace, dropping empty fragments (the behaviour of
`trimmed.split(/\s+/)` on a trimmed string, and the collapse step of
`.replace(/\s+/g, ' ').trim()`). -/
def splitWsAux : List Char → List Char → List (List Char)
  | acc, [] => if acc = [] then [] else [acc.reverse]
  | acc, c :: rest =>
    if c.isWhitespace then
      if acc = [] then splitWsAux [] rest else acc.reverse :: splitWsAux [] rest
    else splitWsAux (c :: acc) rest

/-- Whitespace-separated fragments of a character list. -/
def splitWs (cs : List Char) : List (List Char) := splitWsAux [] cs

/-- JavaScript `String.prototype.trim`. -/
def trimChars (cs : List Char) : List Char :=
  ((cs.dropWhile Char.isWhitespace).reverse.dropWhile Char.isWhitespace).reverse

/-- Lowercase every character (`toLowerCase`). -/
def toLowerChars (cs : List Char) : List Char := cs.map Char.toLower

/-- Port of `normalizeStreetName`: lowercase, punctuation to spaces, expand
the abbreviations st/ave/blvd/rd/dr/ln and single-letter directionals, then
collapse internal whitespace and trim. -/
def normalizeStreetName (value : String) : String :=
  let cs := toLowerChars value.data
  let cs := cs.map (fun c => if c == '.' || c == ',' then ' ' else c)
  let cs := replaceWord "st" "street" cs
  let cs := replaceWord "ave" "avenue" cs
  let cs := replaceWord "blvd" "boulevard" cs
  let cs := replaceWord "rd" "road" cs
  let cs := replaceWord "dr" "drive" cs
  let cs := replaceWord "ln" "lane" cs
  let cs := replaceWord "n" "north" cs
  let cs := replaceWord "s" "south" cs
  let cs := replaceWord "e" "east" cs
  let cs := replaceWord "w" "west" cs
  ⟨List.intercalate [' '] (splitWs cs)⟩

/-- Test for `/^\d+[a-zA-Z]?$/`, the civic-number shape. -/
def isHouseNumberToken (cs : List Char) : Bool :=
  let digits := cs.takeWhile Char.isDigit
  match cs.dropWhile Char.isDigit with
  | [] => digits ≠ []
  | [c] => digits ≠ [] && c.isAlpha
  | _ => false

/-- Port of `extractPrimaryStreet`. -/
def extractPrimaryStreet (address fallbackStreetName : String) : String :=
  let trimmed : String := ⟨trimChars address.data⟩
  if trimmed = "" then fallbackStreetName
  else
    let parts := splitWs trimmed.data
    if parts.length < 2 then
      (if fallbackStreetName ≠ "" then fallbackStreetName else trimmed)
    else if isHouseNumberToken (parts.headD []) then
      ⟨List.intercalate [' '] (parts.drop 1)⟩
    else
      (if fallbackStreetName ≠ "" then fallbackStreetName else trimmed)

/-- Lowercase a whole string. -/
def toLowerStr (s : String) : String := ⟨toLowerChars s.data⟩

/-! ## Domain types

These mirror the TypeScript union and interface types.  The `end` field of an
edge is renamed `endPos` because `end` is a Lean keyword.  Nullable fields
become `Option`. -/

/-- Geographic position, `[longitude, latitude]` in the source. -/
abbrev Position := ℚ × ℚ

/-- Edge classification (`'Frontage' | 'Flankage' | 'Rear Lane' | 'Rear' | 'Side'`). -/
inductive EdgeType where
  | side
  | frontage
  | flankage
  | rear
  | rearLane
deriving DecidableEq, Repr

/-- Non-null road kinds (`'street' | 'lane'`). -/
inductive RoadKind where
  | street
  | lane
deriving DecidableEq, Repr

/-- Lot classification result. -/
inductive LotType where
  | cornerLot
  | doubleFronting
  | standardWithLane
  | standardWithoutLane
deriving DecidableEq, Repr

/-- Analysis confidence (`'high' | 'medium' | 'low'`). -/
inductive Confidence where
  | high
  | medium
  | low
deriving DecidableEq, Repr

/-- Per-edge record, mirroring `EdgeAnalysis`. -/
structure EdgeAnalysis where
  index : ℕ
  start : Position
  endPos : Position
  midpoint : Position
  lengthMeters : ℚ
  type : EdgeType
  roadKind : Option RoadKind
  roadName : String
  roadClass : String
  roadDistanceMeters : Option ℚ
  orientationDiffDeg : Option ℚ
  isRoadAdjacent : Bool
  debug : String
deriving DecidableEq, Repr

/-- A named line feature accepted as a road candidate. -/
structure RoadCandidate where
  name : String
  kind : RoadKind
  className : String
  sourceLayer : String
  lines : List (List Position)
deriving DecidableEq, Repr

/-- A road candidate scored against one edge. -/
structure EvaluatedRoadCandidate extends RoadCandidate where
  distanceMeters : ℚ
  orientationDiffDeg : ℚ
  score : ℚ
  isAdjacent : Bool
deriving DecidableEq, Repr

/-- JavaScript property value as seen by `readStringProperty`: a string or
anything else. -/
inductive PropVal where
  | str (s : String)
  | nonStr
deriving DecidableEq, Repr

/-- A raw coordinate entry after `Number()` coercion of each slot; `none`
marks a non-finite slot.  A non-array entry is modelled as `[]`, which is
rejected by `toPosition` exactly like a non-array is. -/
abbrev RawCoord := List (Option ℚ)

/-- Geometry of a provider feature as far as the source inspects it. -/
inductive RawGeometry where
  | lineStr (coords : List RawCoord)
  | multiLineStr (lines : List (List RawCoord))
  | otherGeom
deriving DecidableEq, Repr

/-- A feature returned by the map provider query. -/
structure RawFeature where
  geometry : RawGeometry
  properties : List (String × PropVal)
  sourceLayer : Option String
deriving DecidableEq, Repr

/-- Parcel attributes (`ParcelProperties`). -/
structure ParcelProperties where
  id : String
  siteId : String
  taxCoord : String
  civicNumber : String
  streetName : String
  fullAddress : String
  lon : ℚ
  lat : ℚ
deriving DecidableEq, Repr

/-- Parcel polygon feature (`ParcelFeature`); `geometry` is the list of rings. -/
structure ParcelFeature where
  geometry : List (List Position)
  properties : ParcelProperties
deriving DecidableEq, Repr

/-- Result record (`ParcelAnalysis`). -/
structure ParcelAnalysis where
  areaM2 : ℚ
  primaryStreet : String
  lotType : LotType
  reason : String
  confidence : Confidence
  edges : List EdgeAnalysis
deriving DecidableEq, Repr

/-! ## Abstract geometry primitives

The turf library functions (`distance`, `bearing`, `pointToLineDistance`,
`area`) are external collaborators; they are abstracted as a parameter. -/

/-- Bundle of external geometry primitives. -/
structure Geo where
  dist : Position → Position → ℚ
  bearing : Position → Position → ℚ
  pointToSeg : Position → Position → Position → ℚ
  polyArea : List (List Position) → ℚ

/-- Port of `bearingDegrees`; over `ℚ` the `Number.isFinite` guard of the
source is vacuous, every value is finite. -/
def bearingDegrees (geo : Geo) (s e : Position) : ℚ := geo.bearing s e

/-! ## Threshold constants -/

def ROAD_PROXIMITY_THRESHOLD_METERS : ℚ := 20
def LANE_PROXIMITY_THRESHOLD_METERS : ℚ := 28
def ROAD_ORIENTATION_THRESHOLD_DEG : ℚ := 55
def LANE_ORIENTATION_THRESHOLD_DEG : ℚ := 85
def RELAXED_FRONTAGE_STREET_DISTANCE_METERS : ℚ := 30
def RELAXED_FRONTAGE_STREET_ORIENTATION_DEG : ℚ := 85
def RELAXED_FLANKAGE_STREET_DISTANCE_METERS : ℚ := 24
def RELAXED_FLANKAGE_STREET_ORIENTATION_DEG : ℚ := 70
def RELAXED_LANE_DISTANCE_METERS : ℚ := 42
def RELAXED_LANE_ORIENTATION_DEG : ℚ := 110
def OPPOSITE_EDGE_STRICT_ORIENTATION_DEG : ℚ := 38
def OPPOSITE_EDGE_RELAXED_ORIENTATION_DEG : ℚ := 62
def EDGE_SELECTION_DISTANCE_TIE_METERS : ℚ := 3
def EDGE_SELECTION_LENGTH_TIE_METERS : ℚ := 1

/-! ## Edge extraction -/

/-- Initial edge record for one consecutive vertex pair. -/
def mkInitialEdge (geo : Geo) (index : ℕ) (start endP : Position) : EdgeAnalysis :=
  { index := index, start := start, endPos := endP,
    midpoint := ((start.1 + endP.1) / 2, (start.2 + endP.2) / 2),
    lengthMeters := geo.dist start endP,
    type := .side, roadKind := none, roadName := "", roadClass := "",
    roadDistanceMeters := none, orientationDiffDeg := none,
    isRoadAdjacent := false, debug := "No road candidate found." }

/-- Walk over consecutive vertex pairs carrying the running index. -/
def toRingEdgesGo (geo : Geo) (index : ℕ) : List Position → List EdgeAnalysis
  | a :: b :: rest => mkInitialEdge geo index a b :: toRingEdgesGo geo (index + 1) (b :: rest)
  | _ => []

/-- Port of `toRingEdges`. -/
def toRingEdges (geo : Geo) (coordinates : List Position) : List EdgeAnalysis :=
  if coordinates.length < 2 then [] else toRingEdgesGo geo 0 coordinates

/-! ## Road candidate extraction (`toRoadCandidate` pipeline) -/

/-- Port of `readStringProperty`: first key whose value is a non-blank
string, trimmed. -/
def readStringProperty (properties : List (String × PropVal)) : List String → String
  | [] => ""
  | key :: rest =>
    match properties.lookup key with
    | some (PropVal.str s) =>
      let t := trimChars s.data
      if t ≠ [] then ⟨t⟩ else readStringProperty properties rest
    | _ => readStringProperty properties rest

/-- Port of `isLineGeometry`. -/
def isLineGeometry : RawGeometry → Bool
  | .lineStr _ => true
  | .multiLineStr _ => true
  | .otherGeom => false

/-- Port of `toPosition`: an entry with two finite leading slots. -/
def toPosition : RawCoord → Option Position
  | some lon :: some lat :: _ => some (lon, lat)
  | _ => none

/-- Port of `normalizeLine`. -/
def normalizeLine (rawLine : List RawCoord) : List Position :=
  rawLine.filterMap toPosition

/-- Port of `extractLineCollections`. -/
def extractLineCollections : RawGeometry → List (List Position)
  | .lineStr coords =>
    let line := normalizeLine coords
    if 2 ≤ line.length then [line] else []
  | .multiLineStr ls => (ls.map normalizeLine).filter (fun line => 2 ≤ line.length)
  | .otherGeom => []

/-- Port of `suffixRoadKindFromName`. -/
def suffixRoadKindFromName (name : String) : Option RoadKind :=
  let normalized := normalizeStreetName name
  if normalized = "" then none
  else if (" lane".data).isSuffixOf normalized.data then some .lane
  else if (" street".data).isSuffixOf normalized.data then some .street
  else none

/-- Port of `isBikeOrPedestrianWay`. -/
def isBikeOrPedestrianWay (name className sourceLayer : String) : Bool :=
  let joined := toLowerStr (name ++ " " ++ className ++ " " ++ sourceLayer)
  containsSub "cycleway" joined || containsSepPair "bike" "lane" joined ||
    containsSub "bikeway" joined || containsSub "greenway" joined ||
    containsSepPair "shared" "use" joined || containsSepPair "multi" "use" joined ||
    containsSub "footway" joined || containsSub "sidewalk" joined ||
    containsSub "pedestrian" joined || containsSub "crossing" joined ||
    containsSub "steps" joined || containsWord "path" joined

/-- Road-vocabulary test of `toRoadCandidate`. -/
def looksRoadLikeText (joined : String) : Bool :=
  containsSub "road" joined || containsSub "street" joined ||
    containsSub "motorway" joined || containsSub "residential" joined ||
    containsSub "service" joined || containsSub "highway" joined ||
    containsSub "primary" joined || containsSub "secondary" joined ||
    containsSub "tertiary" joined || containsSub "trunk" joined ||
    containsSub "avenue" joined || containsSub "boulevard" joined ||
    containsSub "lane" joined || containsSub "alley" joined

/-- Explicit lane vocabulary in a normalized name (`\b(lane|alley|alleyway)\b`). -/
def explicitLaneNameText (normalizedName : String) : Bool :=
  containsWord "lane" normalizedName || containsWord "alley" normalizedName ||
    containsWord "alleyway" normalizedName

/-- Explicit street vocabulary in a normalized name. -/
def explicitStreetNameText (normalizedName : String) : Bool :=
  containsWord "street" normalizedName || containsWord "avenue" normalizedName ||
    containsWord "road" normalizedName || containsWord "drive" normalizedName ||
    containsWord "boulevard" normalizedName || containsWord "highway" normalizedName ||
    containsWord "parkway" normalizedName || containsWord "way" normalizedName ||
    containsWord "place" normalizedName || containsWord "court" normalizedName ||
    containsWord "crescent" normalizedName || containsWord "trail" normalizedName ||
    containsWord "terrace" normalizedName || containsWord "connector" normalizedName

/-- Lane-like class vocabulary (`/(lane|alley|driveway|access)/` on class text). -/
def laneLikeClassText (classJoined : String) : Bool :=
  containsSub "lane" classJoined || containsSub "alley" classJoined ||
    containsSub "driveway" classJoined || containsSub "access" classJoined

/-- Kind inference of `toRoadCandidate` over the extracted name, class and
source-layer strings. -/
def classifyRoadKind (name className sourceLayer : String) : RoadKind :=
  let normalizedName := normalizeStreetName name
  let classJoined := toLowerStr (className ++ " " ++ sourceLayer)
  let explicitLaneName := explicitLaneNameText normalizedName
  let explicitStreetName := explicitStreetNameText normalizedName
  let laneLikeClass := laneLikeClassText classJoined
  let serviceClass := containsWord "service" classJoined
  let laneLike := explicitLaneName || laneLikeClass || (serviceClass && !explicitStreetName)
  match suffixRoadKindFromName name with
  | some .lane => .lane
  | some .street => .street
  | none => if laneLike then .lane else .street

/-- Port of `toRoadCandidate`. -/
def toRoadCandidate (feature : RawFeature) : Option RoadCandidate :=
  if !isLineGeometry feature.geometry then none
  else
    let name := readStringProperty feature.properties ["name", "name_en", "streetname", "ref"]
    let className := readStringProperty feature.properties ["class", "type", "road_class", "kind"]
    let sourceLayer := feature.sourceLayer.getD ""
    let joined := toLowerStr (name ++ " " ++ className ++ " " ++ sourceLayer)
    if !looksRoadLikeText joined then none
    else if isBikeOrPedestrianWay name className sourceLayer then none
    else
      let lines := extractLineCollections feature.geometry
      if lines.length = 0 then none
      else
        some { name := name, kind := classifyRoadKind name className sourceLayer,
               className := className, sourceLayer := sourceLayer, lines := lines }

/-- Kind label used in the dedup key and in diagnostics. -/
def roadKindLabel : RoadKind → String
  | .street => "street"
  | .lane => "lane"

/-- Dedup key of `uniqueCandidates`. -/
def candidateKey (c : RoadCandidate) : String :=
  toLowerStr c.name ++ "|" ++ toLowerStr c.className ++ "|" ++ roadKindLabel c.kind ++
    "|" ++ toLowerStr c.sourceLayer ++ "|" ++ toString c.lines.length

/-- Seen-set recursion of `uniqueCandidates`. -/
def uniqueCandidatesAux (seen : List String) : List RoadCandidate → List RoadCandidate
  | [] => []
  | c :: rest =>
    let key := candidateKey c
    if seen.contains key then uniqueCandidatesAux seen rest
    else c :: uniqueCandidatesAux (key :: seen) rest

/-- Port of `uniqueCandidates`. -/
def uniqueCandidates (candidates : List RoadCandidate) : List RoadCandidate :=
  uniqueCandidatesAux [] candidates

/-! ## Candidate evaluation and ranking -/

/-- Consecutive point pairs of every polyline of a candidate. -/
def segmentsOf (candidate : RoadCandidate) : List (Position × Position) :=
  candidate.lines.flatMap (fun line => line.zip line.tail)

/-- Distance and orientation of one segment against an edge. -/
def segMeasure (geo : Geo) (edge : EdgeAnalysis) (edgeBearing : ℚ)
    (seg : Position × Position) : ℚ × ℚ :=
  (geo.pointToSeg edge.midpoint seg.1 seg.2,
   parallelOrientationDiffDeg edgeBearing (bearingDegrees geo seg.1 seg.2))

/-- Folding step of `evaluateRoadCandidateForEdge`: keep the pair whose
combined score `distance + 0.45 * orientation` is strictly smaller; the
infinite initial bounds of the source are modelled by the `none` state. -/
def bestSegStep (d o : ℚ) : Option (ℚ × ℚ) → Option (ℚ × ℚ)
  | none => some (d, o)
  | some (bd, bo) =>
    if d + o * 0.45 < bd + bo * 0.45 then some (d, o) else some (bd, bo)

/-- Port of `evaluateRoadCandidateForEdge`. -/
def evaluateRoadCandidateForEdge (geo : Geo) (edge : EdgeAnalysis)
    (candidate : RoadCandidate) : Option EvaluatedRoadCandidate :=
  let edgeBearing := bearingDegrees geo edge.start edge.endPos
  let best := (segmentsOf candidate).foldl
    (fun best seg =>
      let m := segMeasure geo edge edgeBearing seg
      bestSegStep m.1 m.2 best) none
  match best with
  | none => none
  | some (bd, bo) =>
    let distanceThreshold :=
      if candidate.kind = .lane then LANE_PROXIMITY_THRESHOLD_METERS
      else ROAD_PROXIMITY_THRESHOLD_METERS
    let orientationThreshold :=
      if candidate.kind = .lane then LANE_ORIENTATION_THRESHOLD_DEG
      else ROAD_ORIENTATION_THRESHOLD_DEG
    some { toRoadCandidate := candidate,
           distanceMeters := bd,
           orientationDiffDeg := bo,
           score := bd + bo * 0.45,
           isAdjacent := decide (bd ≤ distanceThreshold) && decide (bo ≤ orientationThreshold) }

/-- Comparator of the evaluated-candidate sort: ascending score, ties broken
by raw distance. -/
def evalLE (a b : EvaluatedRoadCandidate) : Bool :=
  decide (a.score < b.score) ||
    (decide (a.score = b.score) && decide (a.distanceMeters ≤ b.distanceMeters))

/-- Port of `queryRoadCandidatesForEdge`; the projected pixel window and
`queryRenderedFeatures` call are abstracted into the provider function `q`. -/
def queryRoadCandidatesForEdge (q : EdgeAnalysis → List RawFeature)
    (edge : EdgeAnalysis) : List RoadCandidate :=
  uniqueCandidates ((q edge).filterMap toRoadCandidate)

/-- Port of `findEvaluatedRoadCandidatesForEdge`. -/
def findEvaluatedRoadCandidatesForEdge (geo : Geo)
    (q : EdgeAnalysis → List RawFeature) (edge : EdgeAnalysis) :
    List EvaluatedRoadCandidate :=
  let candidates := queryRoadCandidatesForEdge q edge
  if candidates.length = 0 then []
  else
    let evaluated := candidates.filterMap (evaluateRoadCandidateForEdge geo edge)
    evaluated.mergeSort evalLE

/-! ## Stamping matches onto edges -/

/-- Rendering of `toFixed(1)` used only inside diagnostic strings. -/
def qToFixed1 (q : ℚ) : String :=
  let scaled : ℤ := ⌊q * 10 + 1 / 2⌋
  let sign := if scaled < 0 then "-" else ""
  let n := scaled.natAbs
  sign ++ toString (n / 10) ++ "." ++ toString (n % 10)

/-- Port of `applyMatchToEdge` (the in-place mutation becomes a record
update). -/
def applyMatchToEdge (edge : EdgeAnalysis) (m : EvaluatedRoadCandidate) : EdgeAnalysis :=
  { edge with
    roadName := m.name,
    roadClass := m.className,
    roadDistanceMeters := some m.distanceMeters,
    orientationDiffDeg := some m.orientationDiffDeg,
    isRoadAdjacent := m.isAdjacent,
    roadKind := if m.isAdjacent then some m.kind else none,
    debug :=
      if m.isAdjacent then
        "Adjacent to " ++ roadKindLabel m.kind ++ " \"" ++
          (if m.name = "" then "unnamed" else m.name) ++ "\" at " ++
          qToFixed1 m.distanceMeters ++ "m, orientation diff " ++
          qToFixed1 m.orientationDiffDeg ++ "deg."
      else
        "Nearest road \"" ++ (if m.name = "" then "unnamed" else m.name) ++
          "\" at " ++ qToFixed1 m.distanceMeters ++ "m (not adjacent threshold)." }

/-! ## Candidate pickers -/

/-- Relax modes of the street pickers. -/
inductive StreetRelaxMode where
  | frontage
  | flankage
deriving DecidableEq, Repr

/-- Port of `isRelaxedStreetCandidateForMode`. -/
def isRelaxedStreetCandidateForMode (candidate : EvaluatedRoadCandidate)
    (mode : StreetRelaxMode) : Bool :=
  if candidate.kind ≠ .street then false
  else
    match mode with
    | .frontage =>
      decide (candidate.distanceMeters ≤ RELAXED_FRONTAGE_STREET_DISTANCE_METERS) &&
        decide (candidate.orientationDiffDeg ≤ RELAXED_FRONTAGE_STREET_ORIENTATION_DEG)
    | .flankage =>
      decide (candidate.distanceMeters ≤ RELAXED_FLANKAGE_STREET_DISTANCE_METERS) &&
        decide (candidate.orientationDiffDeg ≤ RELAXED_FLANKAGE_STREET_ORIENTATION_DEG)

/-- Port of `isRelaxedLaneCandidate`. -/
def isRelaxedLaneCandidate (candidate : EvaluatedRoadCandidate) : Bool :=
  if candidate.kind ≠ .lane then false
  else
    decide (candidate.distanceMeters ≤ RELAXED_LANE_DISTANCE_METERS) &&
      decide (candidate.orientationDiffDeg ≤ RELAXED_LANE_ORIENTATION_DEG)

/-- Port of `firstAdjacentStreet`. -/
def firstAdjacentStreet (candidates : List EvaluatedRoadCandidate)
    (allowRelaxed : Bool) (relaxMode : StreetRelaxMode) :
    Option EvaluatedRoadCandidate :=
  candidates.find? (fun candidate =>
    decide (candidate.kind = .street) &&
      (candidate.isAdjacent ||
        (allowRelaxed && isRelaxedStreetCandidateForMode candidate relaxMode)))

/-- Port of `firstAdjacentLane`. -/
def firstAdjacentLane (candidates : List EvaluatedRoadCandidate)
    (allowRelaxed : Bool) : Option EvaluatedRoadCandidate :=
  candidates.find? (fun candidate =>
    decide (candidate.kind = .lane) &&
      (candidate.isAdjacent || (allowRelaxed && isRelaxedLaneCandidate candidate)))

/-- Port of `firstAdjacentStreetByName`. -/
def firstAdjacentStreetByName (candidates : List EvaluatedRoadCandidate)
    (normalizedStreet : String) (allowRelaxed : Bool)
    (relaxMode : StreetRelaxMode) : Option EvaluatedRoadCandidate :=
  if normalizedStreet = "" then none
  else
    candidates.find? (fun candidate =>
      decide (candidate.kind = .street) &&
        decide (normalizeStreetName candidate.name = normalizedStreet) &&
        (candidate.isAdjacent ||
          (allowRelaxed && isRelaxedStreetCandidateForMode candidate relaxMode)))

/-- Port of `firstDifferentStreetCandidate` (relax mode fixed to flankage). -/
def firstDifferentStreetCandidate (candidates : List EvaluatedRoadCandidate)
    (normalizedBaseStreet : String) (allowRelaxed : Bool) :
    Option EvaluatedRoadCandidate :=
  candidates.find? (fun candidate =>
    decide (candidate.kind = .street) &&
      (let normalizedCandidateStreet := normalizeStreetName candidate.name
       decide (normalizedCandidateStreet ≠ "") &&
         !(decide (normalizedBaseStreet ≠ "") &&
             decide (normalizedCandidateStreet = normalizedBaseStreet)) &&
         (candidate.isAdjacent ||
           (allowRelaxed && isRelaxedStreetCandidateForMode candidate .flankage))))

/-! ## Opposite-edge identification -/

/-- Scoring record of one opposite-edge candidate. -/
structure OppositeCandidate where
  index : ℕ
  orientationDiffDeg : ℚ
  perpendicularDistanceMeters : ℚ
  midpointDistanceMeters : ℚ
  score : ℚ
deriving DecidableEq, Repr

/-- Descending comparator of the opposite-edge sort: larger score first,
ties by larger perpendicular distance, then larger midpoint distance. -/
def oppositeGE (a b : OppositeCandidate) : Bool :=
  decide (b.score < a.score) ||
    (decide (a.score = b.score) &&
      (decide (b.perpendicularDistanceMeters < a.perpendicularDistanceMeters) ||
        (decide (a.perpendicularDistanceMeters = b.perpendicularDistanceMeters) &&
          decide (b.midpointDistanceMeters ≤ a.midpointDistanceMeters))))

/-- Port of `findOppositeEdgeIndex`; the source's `-1` results become `none`. -/
def findOppositeEdgeIndex (geo : Geo) (edges : List EdgeAnalysis)
    (frontageIndex : ℕ) : Option ℕ :=
  match edges.find? (fun e => e.index = frontageIndex) with
  | none => none
  | some frontage =>
    let frontageBearing := bearingDegrees geo frontage.start frontage.endPos
    let candidates : List OppositeCandidate :=
      (edges.filter (fun e => e.index ≠ frontageIndex)).map (fun edge =>
        let orientationDiffDeg := parallelOrientationDiffDeg frontageBearing
          (bearingDegrees geo edge.start edge.endPos)
        let perpendicularDistanceMeters :=
          geo.pointToSeg edge.midpoint frontage.start frontage.endPos
        let midpointDistanceMeters := geo.dist frontage.midpoint edge.midpoint
        { index := edge.index,
          orientationDiffDeg := orientationDiffDeg,
          perpendicularDistanceMeters := perpendicularDistanceMeters,
          midpointDistanceMeters := midpointDistanceMeters,
          score := perpendicularDistanceMeters + midpointDistanceMeters * 0.2 })
    let chooseBestOppositeWithinOrientation := fun (maxOrientationDiffDeg : ℚ) =>
      let oriented := candidates.filter
        (fun candidate => candidate.orientationDiffDeg ≤ maxOrientationDiffDeg)
      (oriented.mergeSort oppositeGE).head?.map (·.index)
    match chooseBestOppositeWithinOrientation OPPOSITE_EDGE_STRICT_ORIENTATION_DEG with
    | some i => some i
    | none =>
      match chooseBestOppositeWithinOrientation OPPOSITE_EDGE_RELAXED_ORIENTATION_DEG with
      | some i => some i
      | none =>
        let farthest := edges.foldl
          (fun (best : Option ℕ × ℚ) edge =>
            if edge.index = frontageIndex then best
            else
              let d := geo.dist frontage.midpoint edge.midpoint
              if d > best.2 then (some edge.index, d) else best)
          (none, -1)
        farthest.1

/-! ## Frontage selection -/

/-- Port of `selectNearestEdgeByStreetCandidate`; the options record is
flattened into the `normalizedStreet`, `allowRelaxed` and `relaxMode`
arguments (`normalizedStreet = ""` is the absent case of the source). -/
def selectNearestEdgeByStreetCandidate (edges : List EdgeAnalysis)
    (edgeMatches : ℕ → List EvaluatedRoadCandidate) (normalizedStreet : String)
    (allowRelaxed : Bool) (relaxMode : StreetRelaxMode) : Option EdgeAnalysis :=
  let best := edges.foldl
    (fun (best : Option (EdgeAnalysis × EvaluatedRoadCandidate)) edge =>
      let ms := edgeMatches edge.index
      let candidate :=
        if normalizedStreet ≠ "" then
          firstAdjacentStreetByName ms normalizedStreet allowRelaxed relaxMode
        else firstAdjacentStreet ms allowRelaxed relaxMode
      match candidate with
      | none => best
      | some candidate =>
        match best with
        | none => some (edge, candidate)
        | some (bestEdge, bestCandidate) =>
          let distanceDelta := candidate.distanceMeters - bestCandidate.distanceMeters
          if distanceDelta < -EDGE_SELECTION_DISTANCE_TIE_METERS then some (edge, candidate)
          else if distanceDelta > EDGE_SELECTION_DISTANCE_TIE_METERS then
            some (bestEdge, bestCandidate)
          else
            let lengthDelta := edge.lengthMeters - bestEdge.lengthMeters
            if lengthDelta > EDGE_SELECTION_LENGTH_TIE_METERS then some (edge, candidate)
            else if lengthDelta < -EDGE_SELECTION_LENGTH_TIE_METERS then
              some (bestEdge, bestCandidate)
            else if candidate.orientationDiffDeg < bestCandidate.orientationDiffDeg then
              some (edge, candidate)
            else some (bestEdge, bestCandidate))
    none
  best.map (·.1)

/-! ## Lot-type resolution -/

/-- Lane-adjacency test of the opposite edge used by `determineLotType`
(priority order Corner, Double Fronting, Standard with Lane, Standard
without Lane). -/
def oppositeLaneAdjacent : Option EdgeAnalysis → Bool
  | some oe => oe.isRoadAdjacent && decide (oe.roadKind = some .lane)
  | none => false

/-- Port of `determineLotType` body. -/
def determineLotType (hasFlankage isDoubleFronting : Bool)
    (oppositeEdge : Option EdgeAnalysis) : LotType × String :=
  if hasFlankage then
    (.cornerLot, "Has frontage and at least one flankage edge on a different street.")
  else if isDoubleFronting then
    (.doubleFronting, "Frontage and opposite edge both face different streets (not lanes).")
  else if oppositeLaneAdjacent oppositeEdge then
    (.standardWithLane, "Frontage present and opposite edge is adjacent to a lane/alley.")
  else
    (.standardWithoutLane, "Frontage present and opposite side is not adjacent to a lane.")

/-! ## The analysis pipeline (`analyzeParcel`)

The map argument becomes an optional provider function from an edge to the
raw features near it; the in-place mutation of the shared edge array becomes
one list-rewriting pass per mutation site, matching edges by their `index`
field (indices are unique, one per ring position). -/

/-- Contents of the `edgeMatches` map: per edge index, the evaluated
candidates of that edge; absent entries yield `[]` as `get(i) ?? []` does. -/
def matchesAtFun (geo : Geo) (provider : Option (EdgeAnalysis → List RawFeature))
    (edges0 : List EdgeAnalysis) : ℕ → List EvaluatedRoadCandidate :=
  fun i =>
    match provider with
    | none => []
    | some q =>
      match edges0.find? (fun e => e.index = i) with
      | some e => findEvaluatedRoadCandidatesForEdge geo q e
      | none => []

/-- Default match of one edge: the preferred strict street match, else the
first adjacent match, else the first match. -/
def defaultMatchOf (edgeMatches : ℕ → List EvaluatedRoadCandidate)
    (edge : EdgeAnalysis) : Option EvaluatedRoadCandidate :=
  let ms := edgeMatches edge.index
  match firstAdjacentStreet ms false .frontage with
  | some m => some m
  | none =>
    match ms.find? (fun candidate => candidate.isAdjacent) with
    | some m => some m
    | none => ms.head?

/-- Default stamping of one edge. -/
def defaultStampEdge (edgeMatches : ℕ → List EvaluatedRoadCandidate)
    (edge : EdgeAnalysis) : EdgeAnalysis :=
  match defaultMatchOf edgeMatches edge with
  | none => { edge with debug := "No road candidate found near edge centerline." }
  | some m => applyMatchToEdge edge m

/-- Default pass: stamp each edge with the preferred strict street match,
else the first adjacent match, else the first match, else a no-candidate
diagnostic.  Runs only when a provider is present. -/
def applyDefaultPass (edgeMatches : ℕ → List EvaluatedRoadCandidate)
    (edges : List EdgeAnalysis) : List EdgeAnalysis :=
  edges.map (defaultStampEdge edgeMatches)

/-- Strict-then-relaxed street-bearing edge set (`candidateStreetEdges`). -/
def candidateStreetEdgesOf (edgeMatches : ℕ → List EvaluatedRoadCandidate)
    (edges : List EdgeAnalysis) : List EdgeAnalysis :=
  let strict := edges.filter
    (fun edge => (firstAdjacentStreet (edgeMatches edge.index) false .frontage).isSome)
  if 0 < strict.length then strict
  else
    edges.filter
      (fun edge => (firstAdjacentStreet (edgeMatches edge.index) true .frontage).isSome)

/-- Which stage of the frontage cascade fired; bookkeeping added for the
statements (the source records only the name-match flag). -/
inductive FrontageStage where
  | byNameStrict
  | byNameRelaxed
  | anyStreetStrict
  | anyStreetRelaxed
  | longestEdge
  | noFrontage
deriving DecidableEq, Repr

/-- Longest edge (`edges.reduce`, keeping the earliest strict maximum). -/
def longestEdgeOf : List EdgeAnalysis → Option EdgeAnalysis
  | [] => none
  | h :: t =>
    some (t.foldl (fun best cur =>
      if cur.lengthMeters > best.lengthMeters then cur else best) h)

/-- Frontage-selection cascade: primary-name strict, primary-name relaxed,
any-street strict, any-street relaxed, longest edge.  Returns the chosen
edge, `frontageMatchedByPrimaryStreet`, and the stage that fired. -/
def selectFrontage (edgeMatches : ℕ → List EvaluatedRoadCandidate) (nps : String)
    (edges1 csE : List EdgeAnalysis) :
    Option EdgeAnalysis × Bool × FrontageStage :=
  let byName :=
    if nps ≠ "" then
      match selectNearestEdgeByStreetCandidate edges1 edgeMatches nps false .frontage with
      | some e => some (e, FrontageStage.byNameStrict)
      | none =>
        match selectNearestEdgeByStreetCandidate edges1 edgeMatches nps true .frontage with
        | some e => some (e, FrontageStage.byNameRelaxed)
        | none => none
    else none
  match byName with
  | some (e, st) => (some e, true, st)
  | none =>
    match selectNearestEdgeByStreetCandidate csE edgeMatches "" false .frontage with
    | some e => (some e, false, .anyStreetStrict)
    | none =>
      match selectNearestEdgeByStreetCandidate csE edgeMatches "" true .frontage with
      | some e => (some e, false, .anyStreetRelaxed)
      | none =>
        match longestEdgeOf edges1 with
        | some e => (some e, false, .longestEdge)
        | none => (none, false, .noFrontage)

/-- Street re-match of the chosen frontage edge: the best available street
candidate, name match preferred, relaxed thresholds allowed. -/
def frontageStreetMatchOf (edgeMatches : ℕ → List EvaluatedRoadCandidate)
    (nps : String) (fi : ℕ) : Option EvaluatedRoadCandidate :=
  match firstAdjacentStreetByName (edgeMatches fi) nps true .frontage with
  | some m => some m
  | none => firstAdjacentStreet (edgeMatches fi) true .frontage

/-- Frontage stamping of one edge. -/
def frontageStampEdge (fsm : Option EvaluatedRoadCandidate) (fi : ℕ)
    (e : EdgeAnalysis) : EdgeAnalysis :=
  if e.index = fi then
    let e2 := { e with type := EdgeType.frontage }
    match fsm with
    | some m =>
      { applyMatchToEdge e2 m with isRoadAdjacent := true, roadKind := some RoadKind.street }
    | none => e2
  else e

/-- Frontage stamping over the edge list. -/
def stampFrontage (edgeMatches : ℕ → List EvaluatedRoadCandidate) (nps : String)
    (fi : ℕ) (edges : List EdgeAnalysis) : List EdgeAnalysis :=
  edges.map (frontageStampEdge (frontageStreetMatchOf edgeMatches nps fi) fi)

/-- JS `normalizeStreetName(frontageEdge?.roadName ?? '') || normalizedPrimaryStreet`. -/
def frontageStreetOf (edges : List EdgeAnalysis) (fi : Option ℕ) (nps : String) : String :=
  let roadName :=
    match fi with
    | some i => ((edges.find? (fun e => e.index = i)).map (·.roadName)).getD ""
    | none => ""
  let n := normalizeStreetName roadName
  if n = "" then nps else n

/-- Double-fronting stamping of one edge. -/
def dfStampEdge (c : EvaluatedRoadCandidate) (i : ℕ) (e : EdgeAnalysis) : EdgeAnalysis :=
  if e.index = i then
    { applyMatchToEdge { e with type := EdgeType.frontage } c with
      isRoadAdjacent := true, roadKind := some RoadKind.street }
  else e

/-- Double-fronting pass.  `hasMatches` models `edgeMatches.has(i)`, true
for every edge index exactly when a provider was present. -/
def doubleFrontingPass (edgeMatches : ℕ → List EvaluatedRoadCandidate)
    (hasMatches : ℕ → Bool) (frontPresent : Bool) (oi : Option ℕ)
    (frontageStreetNormalized : String) (edges : List EdgeAnalysis) :
    Bool × List EdgeAnalysis :=
  match oi with
  | none => (false, edges)
  | some i =>
    match edges.find? (fun e => e.index = i) with
    | none => (false, edges)
    | some oppositeEdge =>
      if frontPresent && hasMatches oppositeEdge.index then
        let oppositeMatches := edgeMatches oppositeEdge.index
        match firstAdjacentStreet oppositeMatches true .frontage with
        | none => (false, edges)
        | some c =>
          let oppositeStreet := normalizeStreetName c.name
          if oppositeStreet ≠ "" ∧ frontageStreetNormalized ≠ "" ∧
              oppositeStreet ≠ frontageStreetNormalized then
            (true, edges.map (dfStampEdge c i))
          else (false, edges)
      else (false, edges)

/-- Flankage candidate of one edge (skipping frontage and opposite). -/
def flankCandidateOf (edgeMatches : ℕ → List EvaluatedRoadCandidate)
    (baseFrontageStreet : String) (fi oi : Option ℕ) (allowRelaxed : Bool)
    (e : EdgeAnalysis) : Option EvaluatedRoadCandidate :=
  if some e.index = fi ∨ some e.index = oi then none
  else firstDifferentStreetCandidate (edgeMatches e.index) baseFrontageStreet allowRelaxed

/-- Flankage stamping of one edge. -/
def flankStampEdge (edgeMatches : ℕ → List EvaluatedRoadCandidate)
    (baseFrontageStreet : String) (fi oi : Option ℕ) (allowRelaxed : Bool)
    (e : EdgeAnalysis) : EdgeAnalysis :=
  match flankCandidateOf edgeMatches baseFrontageStreet fi oi allowRelaxed e with
  | none => e
  | some c =>
    { applyMatchToEdge { e with type := EdgeType.flankage } c with
      isRoadAdjacent := true, roadKind := some RoadKind.street }

/-- One flankage sweep over the non-frontage, non-opposite edges; returns
the stamped edges and the number of stamps. -/
def applyFlankagePass (edgeMatches : ℕ → List EvaluatedRoadCandidate)
    (baseFrontageStreet : String) (fi oi : Option ℕ) (allowRelaxed : Bool)
    (edges : List EdgeAnalysis) : List EdgeAnalysis × ℕ :=
  (edges.map (flankStampEdge edgeMatches baseFrontageStreet fi oi allowRelaxed),
   edges.countP (fun e =>
     (flankCandidateOf edgeMatches baseFrontageStreet fi oi allowRelaxed e).isSome))

/-- Rear-lane stamping of one edge, with the relaxed-fallback annotation. -/
def rearLaneStampEdge (oppositeLane : EvaluatedRoadCandidate) (i : ℕ)
    (e : EdgeAnalysis) : EdgeAnalysis :=
  if e.index = i then
    let e2 :=
      { applyMatchToEdge { e with type := EdgeType.rearLane } oppositeLane with
        isRoadAdjacent := true, roadKind := some RoadKind.lane }
    if !oppositeLane.isAdjacent then
      { e2 with debug := e2.debug ++ " (relaxed lane fallback)" }
    else e2
  else e

/-- Rear stamping of one edge. -/
def rearStampEdge (i : ℕ) (e : EdgeAnalysis) : EdgeAnalysis :=
  if e.index = i then { e with type := EdgeType.rear } else e

/-- Rear / rear-lane pass on the opposite edge (skipped on double-fronting);
returns the stamped edges and the `usedRelaxedLane` flag. -/
def rearPass (edgeMatches : ℕ → List EvaluatedRoadCandidate) (oi : Option ℕ)
    (isDoubleFronting : Bool) (edges : List EdgeAnalysis) :
    List EdgeAnalysis × Bool :=
  match oi with
  | none => (edges, false)
  | some i =>
    if isDoubleFronting then (edges, false)
    else
      match edges.find? (fun e => e.index = i) with
      | none => (edges, false)
      | some oppositeEdge =>
        match firstAdjacentLane (edgeMatches oppositeEdge.index) true with
        | some oppositeLane =>
          (edges.map (rearLaneStampEdge oppositeLane i), !oppositeLane.isAdjacent)
        | none => (edges.map (rearStampEdge i), false)

/-- Default pass dispatch on map presence (`if (map) { ... }`). -/
def defaultPassStep (edgeMatches : ℕ → List EvaluatedRoadCandidate)
    (provider : Option (EdgeAnalysis → List RawFeature))
    (edges0 : List EdgeAnalysis) : List EdgeAnalysis :=
  match provider with
  | none => edges0
  | some _ => applyDefaultPass edgeMatches edges0

/-- Frontage stamping dispatch on the selection result. -/
def frontageStampStep (edgeMatches : ℕ → List EvaluatedRoadCandidate) (nps : String)
    (sel : Option EdgeAnalysis) (edges : List EdgeAnalysis) : List EdgeAnalysis :=
  match sel with
  | none => edges
  | some fe => stampFrontage edgeMatches nps fe.index edges

/-- Opposite-edge identification dispatch on frontage presence. -/
def oppositeIndexStep (geo : Geo) (edges : List EdgeAnalysis) (fi : Option ℕ) : Option ℕ :=
  match fi with
  | some fi => findOppositeEdgeIndex geo edges fi
  | none => none

/-- Strict-then-relaxed flankage sweep: edges, count, and relaxed flag. -/
def flankStep (edgeMatches : ℕ → List EvaluatedRoadCandidate)
    (baseFrontageStreet : String) (fi oi : Option ℕ)
    (edges : List EdgeAnalysis) : List EdgeAnalysis × ℕ × Bool :=
  let flank1 := applyFlankagePass edgeMatches baseFrontageStreet fi oi false edges
  if flank1.2 = 0 then
    let flank2 := applyFlankagePass edgeMatches baseFrontageStreet fi oi true flank1.1
    if 0 < flank2.2 then (flank2.1, flank2.2, true) else (flank2.1, 0, false)
  else (flank1.1, flank1.2, false)

/-- Intermediate state of one `analyzeParcel` run: the fully stamped edge
list together with the local flags of the source function. -/
structure AnalysisContext where
  primaryStreet : String
  normalizedPrimaryStreet : String
  candidateStreetEdges : List EdgeAnalysis
  frontageIndex : Option ℕ
  frontageMatchedByPrimaryStreet : Bool
  frontageStage : FrontageStage
  oppositeIndex : Option ℕ
  isDoubleFronting : Bool
  flankageCount : ℕ
  usedRelaxedFlankage : Bool
  usedRelaxedLane : Bool
  edges : List EdgeAnalysis
deriving DecidableEq, Repr

/-- Classification pipeline of `analyzeParcel` up to (not including) the
lot-type, justification and confidence derivation. -/
def analysisContext (geo : Geo) (provider : Option (EdgeAnalysis → List RawFeature))
    (parcel : ParcelFeature) : AnalysisContext :=
  let ring := parcel.geometry.headD []
  let edges0 := toRingEdges geo ring
  let primaryStreet :=
    extractPrimaryStreet parcel.properties.fullAddress parcel.properties.streetName
  let nps := normalizeStreetName primaryStreet
  let edgeMatches := matchesAtFun geo provider edges0
  let hasMatches : ℕ → Bool := fun i =>
    provider.isSome && (edges0.find? (fun e => e.index = i)).isSome
  let edges1 := defaultPassStep edgeMatches provider edges0
  let csE := candidateStreetEdgesOf edgeMatches edges1
  let sel := selectFrontage edgeMatches nps edges1 csE
  let frontageIndex := sel.1.map (·.index)
  let edges2 := frontageStampStep edgeMatches nps sel.1 edges1
  let oppositeIndex := oppositeIndexStep geo edges2 frontageIndex
  let frontageStreetNormalized := frontageStreetOf edges2 frontageIndex nps
  let df := doubleFrontingPass edgeMatches hasMatches sel.1.isSome oppositeIndex
    frontageStreetNormalized edges2
  let baseFrontageStreet := frontageStreetOf df.2 frontageIndex nps
  let flankResult := flankStep edgeMatches baseFrontageStreet frontageIndex
    oppositeIndex df.2
  let rear := rearPass edgeMatches oppositeIndex df.1 flankResult.1
  { primaryStreet := primaryStreet,
    normalizedPrimaryStreet := nps,
    candidateStreetEdges := csE,
    frontageIndex := frontageIndex,
    frontageMatchedByPrimaryStreet := sel.2.1,
    frontageStage := sel.2.2,
    oppositeIndex := oppositeIndex,
    isDoubleFronting := df.1,
    flankageCount := flankResult.2.1,
    usedRelaxedFlankage := flankResult.2.2,
    usedRelaxedLane := rear.2,
    edges := rear.1 }

/-- Opposite edge of a finished context. -/
def oppositeEdgeOf (c : AnalysisContext) : Option EdgeAnalysis :=
  match c.oppositeIndex with
  | some i => c.edges.find? (fun e => e.index = i)
  | none => none

/-- Post-pass lane detection on the opposite edge. -/
def laneDetectedOnOpposite (c : AnalysisContext) : Bool :=
  oppositeLaneAdjacent (oppositeEdgeOf c)

/-- Port of `hasReliableFlankage`: a flankage count with distrust of a
relaxed-only result when a lane sits on the opposite edge. -/
def hasReliableFlankage (c : AnalysisContext) : Bool :=
  decide (0 < c.flankageCount) && !(c.usedRelaxedFlankage && laneDetectedOnOpposite c)

/-- Lot type and base justification of a finished context. -/
def lotTypeReasonOf (c : AnalysisContext) : LotType × String :=
  determineLotType (hasReliableFlankage c) c.isDoubleFronting (oppositeEdgeOf c)

/-- Lot type of a finished context. -/
def lotTypeOf (c : AnalysisContext) : LotType := (lotTypeReasonOf c).1

/-- Final justification string with the relaxed-fallback qualifiers. -/
def finalReasonOf (c : AnalysisContext) : String :=
  let lotType := (lotTypeReasonOf c).1
  let reason := (lotTypeReasonOf c).2
  let fr :=
    if lotType = LotType.cornerLot ∧ c.usedRelaxedFlankage then
      reason ++ " Secondary street detected using relaxed flankage fallback."
    else reason
  let fr :=
    if lotType = LotType.standardWithLane ∧ c.usedRelaxedFlankage ∧ 0 < c.flankageCount then
      reason ++ " Weak flankage evidence was ignored because a rear lane was detected."
    else fr
  let fr :=
    if lotType = LotType.standardWithLane ∧ c.usedRelaxedLane then
      fr ++ " Lane detected using relaxed rear-lane fallback."
    else fr
  fr

/-- Confidence derivation of `analyzeParcel`. -/
def confidenceOf (c : AnalysisContext) : Confidence :=
  let conf : Confidence := Confidence.high
  let conf :=
    if !c.frontageMatchedByPrimaryStreet then
      (if 0 < c.candidateStreetEdges.length then Confidence.medium else Confidence.low)
    else conf
  let conf :=
    if lotTypeOf c = LotType.doubleFronting ∧ !c.frontageMatchedByPrimaryStreet then
      Confidence.medium
    else conf
  let conf :=
    if c.usedRelaxedFlankage || c.usedRelaxedLane then
      (if conf = Confidence.low then Confidence.low else Confidence.medium)
    else conf
  conf

/-- Port of `analyzeParcel`: the emitted `ParcelAnalysis` record. -/
def analyzeParcel (geo : Geo) (provider : Option (EdgeAnalysis → List RawFeature))
    (parcel : ParcelFeature) : ParcelAnalysis :=
  let c := analysisContext geo provider parcel
  { areaM2 := geo.polyArea parcel.geometry,
    primaryStreet := c.primaryStreet,
    lotType := lotTypeOf c,
    reason := finalReasonOf c,
    confidence := confidenceOf c,
    edges := c.edges }

/-! ## Viewport spatial index (`parcelViewportIndex.ts`) -/

def DEFAULT_CELL_SIZE_DEG : ℚ := 0.005

/-- Viewport bounds accessor bundle (`BoundsLike`). -/
structure BoundsLike where
  west : ℚ
  east : ℚ
  south : ℚ
  north : ℚ
deriving DecidableEq, Repr

/-- Grid index.  The string key `x:y` of the source `Map` is modelled by the
integer pair itself (the rendering of an integer pair to that string is
injective), and the map by its lookup function. -/
structure ParcelViewportIndex where
  cellSizeDeg : ℚ
  cells : ℤ × ℤ → Option (List ParcelFeature)

/-- Query options; a missing `maxFeatures` is the infinite default, and
`paddingFrac` holds the padding ratio option. -/
structure QueryParcelsOptions where
  paddingFrac : Option ℚ
  maxFeatures : Option ℕ
  center : Option Position

/-- Port of `cellIndex`. -/
def cellIndex (value cellSizeDeg : ℚ) : ℤ := ⌊value / cellSizeDeg⌋

/-- Port of `distanceSq`. -/
def distanceSq (a b : Position) : ℚ :=
  (a.1 - b.1) * (a.1 - b.1) + (a.2 - b.2) * (a.2 - b.2)

/-- Port of `buildParcelViewportIndex`; the bucket map built by pushes is
modelled extensionally, a cell's bucket being the subsequence of parcels
hashing to it (`none` when empty, matching `Map.get` misses).  The
finite-coordinate skip is vacuous over `ℚ`. -/
def buildParcelViewportIndex (parcels : List ParcelFeature) (cellSizeDeg : ℚ) :
    ParcelViewportIndex :=
  { cellSizeDeg := cellSizeDeg,
    cells := fun key =>
      let bucket := parcels.filter (fun parcel =>
        decide (cellIndex parcel.properties.lon cellSizeDeg = key.1) &&
          decide (cellIndex parcel.properties.lat cellSizeDeg = key.2))
      if bucket = [] then none else some bucket }

/-- Padded query box of `queryParcelsInBounds`. -/
structure PaddedBox where
  west : ℚ
  east : ℚ
  south : ℚ
  north : ℚ
deriving DecidableEq, Repr

/-- Bounds padded on each axis by the padding ratio of that axis's span. -/
def paddedBoxOf (bounds : BoundsLike) (opts : QueryParcelsOptions) : PaddedBox :=
  let padding := opts.paddingFrac.getD 0.22
  let lonSpan := max 0 (bounds.east - bounds.west)
  let latSpan := max 0 (bounds.north - bounds.south)
  { west := bounds.west - lonSpan * padding,
    east := bounds.east + lonSpan * padding,
    south := bounds.south - latSpan * padding,
    north := bounds.north + latSpan * padding }

/-- The in-box re-check of the selection loop (negation of the skip). -/
def inPaddedBox (box : PaddedBox) (parcel : ParcelFeature) : Bool :=
  !(decide (parcel.properties.lon < box.west) ||
    decide (parcel.properties.lon > box.east) ||
    decide (parcel.properties.lat < box.south) ||
    decide (parcel.properties.lat > box.north))

/-- Inclusive integer range of the `for (x = minX; x <= maxX; ...)` loop. -/
def intRangeIncl (lo hi : ℤ) : List ℤ :=
  if hi < lo then [] else (List.range (hi - lo).toNat.succ).map (fun k => lo + (k : ℤ))

/-- Pre-cap selection of `queryParcelsInBounds`: walk the covered cells and
re-check each bucketed parcel against the padded box. -/
def selectedParcels (index : ParcelViewportIndex) (bounds : BoundsLike)
    (opts : QueryParcelsOptions) : List ParcelFeature :=
  let box := paddedBoxOf bounds opts
  let minX := cellIndex box.west index.cellSizeDeg
  let maxX := cellIndex box.east index.cellSizeDeg
  let minY := cellIndex box.south index.cellSizeDeg
  let maxY := cellIndex box.north index.cellSizeDeg
  (intRangeIncl minX maxX).flatMap (fun x =>
    (intRangeIncl minY maxY).flatMap (fun y =>
      match index.cells (x, y) with
      | none => []
      | some bucket => bucket.filter (inPaddedBox box)))

/-- Center of the capping sort: the supplied center, else the padded box's. -/
def queryCenterOf (bounds : BoundsLike) (opts : QueryParcelsOptions) : Position :=
  match opts.center with
  | some c => c
  | none =>
    let box := paddedBoxOf bounds opts
    ((box.west + box.east) / 2, (box.south + box.north) / 2)

/-- Ascending squared-distance comparator of the capping sort. -/
def closerToCenter (center : Position) (a b : ParcelFeature) : Bool :=
  decide (distanceSq (a.properties.lon, a.properties.lat) center ≤
    distanceSq (b.properties.lon, b.properties.lat) center)

/-- Port of `queryParcelsInBounds`. -/
def queryParcelsInBounds (index : ParcelViewportIndex) (bounds : BoundsLike)
    (opts : QueryParcelsOptions) : List ParcelFeature :=
  let selected := selectedParcels index bounds opts
  match opts.maxFeatures with
  | none => selected
  | some maxFeatures =>
    if selected.length ≤ maxFeatures then selected
    else
      (selected.mergeSort (closerToCenter (queryCenterOf bounds opts))).take maxFeatures

/-! ## Concrete fixtures

A Manhattan-style stand-in for the geodesic primitives, with coordinates
read directly in meters; adequate because every claim is either independent
of the metric or quantified over it. -/

/-- Simple concrete geometry bundle for scenario runs. -/
def testGeo : Geo :=
  { dist := fun a b => |a.1 - b.1| + |a.2 - b.2|,
    bearing := fun a b => if a.2 = b.2 then 90 else 0,
    pointToSeg := fun p s e => min (|p.1 - s.1| + |p.2 - s.2|) (|p.1 - e.1| + |p.2 - e.2|),
    polyArea := fun _ => 400 }

/-- Closed square ring, 20 units a side. -/
def testRing : List Position := [(0, 0), (20, 0), (20, 20), (0, 20), (0, 0)]

/-- Parcel addressed on Main St. -/
def testParcel : ParcelFeature :=
  { geometry := [testRing],
    properties :=
      { id := "p1", siteId := "", taxCoord := "", civicNumber := "123",
        streetName := "Main St", fullAddress := "123 Main St", lon := 10, lat := 10 } }

/-- Street feature 20 m south of edge 0, strictly adjacent. -/
def mainStreetFeat : RawFeature :=
  { geometry := .lineStr [[some 10, some (-20)], [some 30, some (-20)]],
    properties := [("name", .str "Main St"), ("class", .str "street")],
    sourceLayer := some "road" }

/-- Street feature 25 m south of edge 0: outside strict thresholds, inside
the relaxed frontage thresholds. -/
def mainStreetFarFeat : RawFeature :=
  { geometry := .lineStr [[some 10, some (-25)], [some 30, some (-25)]],
    properties := [("name", .str "Main St"), ("class", .str "street")],
    sourceLayer := some "road" }

/-- Street feature 22 m east of edge 1: outside strict thresholds, inside
the relaxed flankage thresholds. -/
def oakAveFeat : RawFeature :=
  { geometry := .lineStr [[some 42, some 10], [some 42, some 40]],
    properties := [("name", .str "Oak Ave"), ("class", .str "street")],
    sourceLayer := some "road" }

/-- Unnamed alley feature 10 m north of edge 2, lane-adjacent. -/
def alleyFeat : RawFeature :=
  { geometry := .lineStr [[some 10, some 30], [some 30, some 30]],
    properties := [("class", .str "alley")],
    sourceLayer := some "road" }

/-- Provider with a strict frontage street, a relaxed-only secondary street
and a rear lane. -/
def providerC1 : EdgeAnalysis → List RawFeature := fun e =>
  if e.index = 0 then [mainStreetFeat]
  else if e.index = 1 then [oakAveFeat]
  else if e.index = 2 then [alleyFeat]
  else []

/-- Provider with only a relaxed-threshold frontage street. -/
def providerC5 : EdgeAnalysis → List RawFeature := fun e =>
  if e.index = 0 then [mainStreetFarFeat] else []

/-- Provider that returns no features at all. -/
def providerEmpty : EdgeAnalysis → List RawFeature := fun _ => []

/-- Feature named with an explicit street-type suffix but a lane-like class. -/
def oakAlleyFeat : RawFeature :=
  { geometry := .lineStr [[some 0, some 0], [some 1, some 0]],
    properties := [("name", .str "Oak Avenue"), ("class", .str "alley")],
    sourceLayer := some "road" }

/-! ## Arithmetic facts about `jsMod` and the orientation fold -/

/-- Lower and upper bound of the JavaScript remainder by 360. -/
theorem jsMod_360_bounds (a : ℚ) : -360 < jsMod a 360 ∧ jsMod a 360 < 360 := by
  unfold jsMod qTrunc
  have key : 360 * (a / 360) = a := by field_simp
  rcases le_or_lt 0 (a / 360) with hx | hx
  · rw [if_pos hx]
    have h1 : ((⌊a / 360⌋ : ℤ) : ℚ) ≤ a / 360 := Int.floor_le _
    have h2 : a / 360 < (⌊a / 360⌋ : ℚ) + 1 := Int.lt_floor_add_one _
    constructor <;> nlinarith
  · rw [if_neg (not_le.mpr hx)]
    have h1 : a / 360 ≤ ((⌈a / 360⌉ : ℤ) : ℚ) := Int.le_ceil _
    have h2 : ((⌈a / 360⌉ : ℤ) : ℚ) < a / 360 + 1 := Int.ceil_lt_add_one _
    constructor <;> nlinarith

/-- The remainder of a nonnegative value is in `[0, 360)`. -/
theorem jsMod_360_nonneg (a : ℚ) (ha : 0 ≤ a) :
    0 ≤ jsMod a 360 ∧ jsMod a 360 < 360 := by
  unfold jsMod qTrunc
  have hx : 0 ≤ a / 360 := by positivity
  rw [if_pos hx]
  have key : 360 * (a / 360) = a := by field_simp
  have h1 : ((⌊a / 360⌋ : ℤ) : ℚ) ≤ a / 360 := Int.floor_le _
  have h2 : a / 360 < (⌊a / 360⌋ : ℚ) + 1 := Int.lt_floor_add_one _
  constructor <;> nlinarith

/-- The bearing normalization `((a % 360) + 360) % 360` lands in `[0, 360)`. -/
theorem jsNorm_360_bounds (a : ℚ) :
    0 ≤ jsMod (jsMod a 360 + 360) 360 ∧ jsMod (jsMod a 360 + 360) 360 < 360 := by
  have h := jsMod_360_bounds a
  exact jsMod_360_nonneg _ (by linarith [h.1])

/-- C7: the angular-difference function is symmetric and its result lies in
the interval [0, 90] for all (finite) bearings; over `ℚ` every value is
finite. -/
theorem parallelOrientationDiffDeg_symm_range (a b : ℚ) :
    parallelOrientationDiffDeg a b = parallelOrientationDiffDeg b a ∧
    0 ≤ parallelOrientationDiffDeg a b ∧ parallelOrientationDiffDeg a b ≤ 90 := by
  have hA := jsNorm_360_bounds a
  have hB := jsNorm_360_bounds b
  unfold parallelOrientationDiffDeg
  dsimp only
  constructor
  · rw [abs_sub_comm]
  · set x := jsMod (jsMod a 360 + 360) 360 with hx
    set y := jsMod (jsMod b 360 + 360) 360 with hy
    have habs : 0 ≤ |x - y| ∧ |x - y| < 360 := by
      constructor
      · exact abs_nonneg _
      · rw [abs_sub_lt_iff]
        constructor <;> linarith [hA.1, hA.2, hB.1, hB.2]
    split_ifs <;> constructor <;> linarith [habs.1, habs.2]

/-! ## Edge extractor facts -/

/-- Length of the edge walk: one fewer than the vertex count. -/
theorem toRingEdgesGo_length (geo : Geo) : ∀ (k : ℕ) (cs : List Position),
    (toRingEdgesGo geo k cs).length = cs.length - 1
  | _, [] => rfl
  | _, [_] => rfl
  | k, _ :: b :: rest => by
    simp only [toRingEdgesGo, List.length_cons]
    rw [toRingEdgesGo_length geo (k + 1) (b :: rest)]
    simp only [List.length_cons]
    omega

/-- Element description of the edge walk. -/
theorem toRingEdgesGo_get (geo : Geo) : ∀ (k i : ℕ) (cs : List Position) (e : EdgeAnalysis),
    (toRingEdgesGo geo k cs)[i]? = some e →
    ∃ s t, cs[i]? = some s ∧ cs[i + 1]? = some t ∧ e = mkInitialEdge geo (k + i) s t
  | _, i, [], e => by simp [toRingEdgesGo]
  | _, i, [_], e => by simp [toRingEdgesGo]
  | k, 0, a :: b :: rest, e => by
    simp only [toRingEdgesGo, List.getElem?_cons_zero, Option.some.injEq]
    intro h
    exact ⟨a, b, rfl, by simp, by rw [← h, Nat.add_zero]⟩
  | k, i + 1, a :: b :: rest, e => by
    simp only [toRingEdgesGo, List.getElem?_cons_succ]
    intro h
    obtain ⟨s, t, h1, h2, h3⟩ := toRingEdgesGo_get geo (k + 1) i (b :: rest) e h
    refine ⟨s, t, by simpa using h1, by simpa using h2, ?_⟩
    rw [h3]
    have harith : k + 1 + i = k + (i + 1) := by omega
    rw [harith]

/-- C6: for every closed ring with at least 3 vertices the edge extractor
returns exactly N−1 edges; edge i runs from vertex i to vertex i+1, its
midpoint is the arithmetic mean of its endpoints, and every edge starts as
type side with no road kind, not road-adjacent, and the default diagnostic
string. -/
theorem toRingEdges_spec (geo : Geo) (ring : List Position) (h3 : 3 ≤ ring.length) :
    (toRingEdges geo ring).length = ring.length - 1 ∧
    ∀ i e, (toRingEdges geo ring)[i]? = some e →
      e.index = i ∧ ring[i]? = some e.start ∧ ring[i + 1]? = some e.endPos ∧
      e.midpoint = ((e.start.1 + e.endPos.1) / 2, (e.start.2 + e.endPos.2) / 2) ∧
      e.lengthMeters = geo.dist e.start e.endPos ∧
      e.type = EdgeType.side ∧ e.roadKind = none ∧ e.roadName = "" ∧
      e.isRoadAdjacent = false ∧ e.debug = "No road candidate found." := by
  have hguard : ¬(ring.length < 2) := by omega
  unfold toRingEdges
  rw [if_neg hguard]
  refine ⟨toRingEdgesGo_length geo 0 ring, ?_⟩
  intro i e h
  obtain ⟨s, t, h1, h2, heq⟩ := toRingEdgesGo_get geo 0 i ring e h
  subst heq
  refine ⟨by simp [mkInitialEdge], by simpa [mkInitialEdge] using h1,
    by simpa [mkInitialEdge] using h2, rfl, rfl, rfl, rfl, rfl, rfl, rfl⟩

/-- Witness for C6 at the concrete square ring. -/
theorem toRingEdges_spec_witness :
    (toRingEdges testGeo testRing).length = testRing.length - 1 :=
  (toRingEdges_spec testGeo testRing (by decide)).1

/-! ## Evaluator facts -/

/-- Combined score of a (distance, orientation) measurement. -/
def combineScore (m : ℚ × ℚ) : ℚ := m.1 + m.2 * 0.45

/-- Per-segment combined scores of a candidate against an edge. -/
def segScoreList (geo : Geo) (edge : EdgeAnalysis) (candidate : RoadCandidate) : List ℚ :=
  (segmentsOf candidate).map (fun seg =>
    combineScore (segMeasure geo edge (bearingDegrees geo edge.start edge.endPos) seg))

/-- The best-segment fold seeded with an accumulator yields an achieved
minimum of the combined score. -/
theorem foldl_bestSegStep_some : ∀ (ms : List (ℚ × ℚ)) (p0 : ℚ × ℚ),
    ∃ p, ms.foldl (fun acc m => bestSegStep m.1 m.2 acc) (some p0) = some p ∧
      (p = p0 ∨ p ∈ ms) ∧ combineScore p ≤ combineScore p0 ∧
      ∀ m ∈ ms, combineScore p ≤ combineScore m := by
  intro ms
  induction ms with
  | nil => intro p0; exact ⟨p0, rfl, Or.inl rfl, le_refl _, by simp⟩
  | cons m rest ih =>
    intro p0
    obtain ⟨d0, o0⟩ := p0
    obtain ⟨d, o⟩ := m
    simp only [List.foldl_cons, bestSegStep]
    split_ifs with hc
    · obtain ⟨p, hp1, hp2, hp3, hp4⟩ := ih (d, o)
      refine ⟨p, hp1, ?_, ?_, ?_⟩
      · rcases hp2 with h | h
        · exact Or.inr (by simp [h])
        · exact Or.inr (List.mem_cons_of_mem _ h)
      · have : combineScore (d, o) ≤ combineScore (d0, o0) := le_of_lt hc
        exact le_trans hp3 this
      · intro x hx
        rcases List.mem_cons.mp hx with h | h
        · exact h ▸ hp3
        · exact hp4 x h
    · obtain ⟨p, hp1, hp2, hp3, hp4⟩ := ih (d0, o0)
      refine ⟨p, hp1, ?_, hp3, ?_⟩
      · rcases hp2 with h | h
        · exact Or.inl h
        · exact Or.inr (List.mem_cons_of_mem _ h)
      · intro x hx
        rcases List.mem_cons.mp hx with h | h
        · subst h
          have : combineScore (d0, o0) ≤ combineScore (d, o) := le_of_not_lt hc
          exact le_trans hp3 this
        · exact hp4 x h

/-- The best-segment fold from the empty accumulator over a nonempty list
yields an achieved minimum. -/
theorem foldl_bestSegStep_none (ms : List (ℚ × ℚ)) (h : ms ≠ []) :
    ∃ p, ms.foldl (fun acc m => bestSegStep m.1 m.2 acc) none = some p ∧
      p ∈ ms ∧ ∀ m ∈ ms, combineScore p ≤ combineScore m := by
  match ms, h with
  | m :: rest, _ =>
    obtain ⟨d, o⟩ := m
    simp only [List.foldl_cons, bestSegStep]
    obtain ⟨p, hp1, hp2, hp3, hp4⟩ := foldl_bestSegStep_some rest (d, o)
    refine ⟨p, hp1, ?_, ?_⟩
    · rcases hp2 with h | h
      · exact h ▸ List.mem_cons_self _ _
      · exact List.mem_cons_of_mem _ h
    · intro x hx
      rcases List.mem_cons.mp hx with h | h
      · exact h ▸ hp3
      · exact hp4 x h

/-- Transitivity of the evaluated-candidate comparator. -/
theorem evalLE_trans (a b c : EvaluatedRoadCandidate) :
    evalLE a b = true → evalLE b c = true → evalLE a c = true := by
  unfold evalLE
  simp only [Bool.or_eq_true, Bool.and_eq_true, decide_eq_true_eq]
  rintro (h | ⟨h1, h2⟩) (g | ⟨g1, g2⟩)
  · exact Or.inl (lt_trans h g)
  · exact Or.inl (g1 ▸ h)
  · exact Or.inl (h1 ▸ g)
  · exact Or.inr ⟨h1.trans g1, le_trans h2 g2⟩

/-- Totality of the evaluated-candidate comparator. -/
theorem evalLE_total (a b : EvaluatedRoadCandidate) :
    (evalLE a b || evalLE b a) = true := by
  unfold evalLE
  simp only [Bool.or_eq_true, Bool.and_eq_true, decide_eq_true_eq]
  rcases lt_trichotomy a.score b.score with h | h | h
  · exact Or.inl (Or.inl h)
  · rcases le_total a.distanceMeters b.distanceMeters with hd | hd
    · exact Or.inl (Or.inr ⟨h, hd⟩)
    · exact Or.inr (Or.inr ⟨h.symm, hd⟩)
  · exact Or.inr (Or.inl h)

/-- C3: with at least one usable segment the evaluator returns the minimum
combined score `distance + 0.45·orientation` over all consecutive segment
pairs; adjacency is distance ≤ 20 and orientation ≤ 55 for streets, and
distance ≤ 28 and orientation ≤ 85 for lanes; a candidate with no usable
segment yields no result; and the evaluated candidate list is sorted
ascending by score with ties broken by raw distance. -/
theorem evaluateRoadCandidateForEdge_spec (geo : Geo) (q : EdgeAnalysis → List RawFeature)
    (edge : EdgeAnalysis) (candidate : RoadCandidate) :
    (segmentsOf candidate = [] → evaluateRoadCandidateForEdge geo edge candidate = none) ∧
    (segmentsOf candidate ≠ [] →
      ∃ ev, evaluateRoadCandidateForEdge geo edge candidate = some ev ∧
        ev.score ∈ segScoreList geo edge candidate ∧
        (∀ s ∈ segScoreList geo edge candidate, ev.score ≤ s) ∧
        (candidate.kind = RoadKind.street →
          (ev.isAdjacent = true ↔ ev.distanceMeters ≤ 20 ∧ ev.orientationDiffDeg ≤ 55)) ∧
        (candidate.kind = RoadKind.lane →
          (ev.isAdjacent = true ↔ ev.distanceMeters ≤ 28 ∧ ev.orientationDiffDeg ≤ 85))) ∧
    (findEvaluatedRoadCandidatesForEdge geo q edge).Sorted (fun a b => evalLE a b = true) := by
  refine ⟨?_, ?_, ?_⟩
  · intro h
    simp [evaluateRoadCandidateForEdge, h]
  · intro hne
    unfold evaluateRoadCandidateForEdge
    have hfold :
        (segmentsOf candidate).foldl
          (fun best seg =>
            let m := segMeasure geo edge (bearingDegrees geo edge.start edge.endPos) seg
            bestSegStep m.1 m.2 best) none =
        ((segmentsOf candidate).map
          (fun seg => segMeasure geo edge (bearingDegrees geo edge.start edge.endPos) seg)).foldl
          (fun acc m => bestSegStep m.1 m.2 acc) none := by
      rw [List.foldl_map]
    have hne2 :
        (segmentsOf candidate).map
          (fun seg => segMeasure geo edge (bearingDegrees geo edge.start edge.endPos) seg) ≠ [] := by
      simpa using hne
    obtain ⟨p, hp1, hp2, hp3⟩ := foldl_bestSegStep_none _ hne2
    obtain ⟨bd, bo⟩ := p
    dsimp only
    rw [hfold, hp1]
    refine ⟨_, rfl, ?_, ?_, ?_, ?_⟩
    · show combineScore (bd, bo) ∈ segScoreList geo edge candidate
      unfold segScoreList
      obtain ⟨seg, hseg1, hseg2⟩ := List.mem_map.mp hp2
      exact List.mem_map.mpr ⟨seg, hseg1, by rw [hseg2]⟩
    · intro s hs
      obtain ⟨seg, hseg1, hseg2⟩ := List.mem_map.mp hs
      have hmem := List.mem_map_of_mem
        (fun seg => segMeasure geo edge (bearingDegrees geo edge.start edge.endPos) seg) hseg1
      have hle := hp3 _ hmem
      show combineScore (bd, bo) ≤ s
      rw [← hseg2]
      exact hle
    · intro hk
      rw [hk]
      simp [ROAD_PROXIMITY_THRESHOLD_METERS, ROAD_ORIENTATION_THRESHOLD_DEG]
    · intro hk
      rw [hk]
      simp [LANE_PROXIMITY_THRESHOLD_METERS, LANE_ORIENTATION_THRESHOLD_DEG]
  · unfold findEvaluatedRoadCandidatesForEdge
    dsimp only
    split_ifs with h
    · exact List.sorted_nil
    · exact List.sorted_mergeSort evalLE_trans evalLE_total _

/-- Fixture edge for the evaluator witness. -/
def wEdge : EdgeAnalysis := mkInitialEdge testGeo 0 (0, 0) (20, 0)

/-- Candidate with two usable segments. -/
def wCand : RoadCandidate :=
  { name := "w", kind := .street, className := "street", sourceLayer := "road",
    lines := [[(10, -20), (30, -20), (30, 0)]] }

/-- Candidate with a single-point polyline, so no usable segment. -/
def wCandEmpty : RoadCandidate :=
  { name := "w", kind := .street, className := "street", sourceLayer := "road",
    lines := [[(10, -20)]] }

/-- Witness for C3 at concrete candidates. -/
theorem evaluateRoadCandidateForEdge_spec_witness :
    evaluateRoadCandidateForEdge testGeo wEdge wCandEmpty = none ∧
    (∃ ev, evaluateRoadCandidateForEdge testGeo wEdge wCand = some ev ∧
      ev.score ∈ segScoreList testGeo wEdge wCand ∧
      (∀ s ∈ segScoreList testGeo wEdge wCand, ev.score ≤ s) ∧
      (wCand.kind = RoadKind.street →
        (ev.isAdjacent = true ↔ ev.distanceMeters ≤ 20 ∧ ev.orientationDiffDeg ≤ 55)) ∧
      (wCand.kind = RoadKind.lane →
        (ev.isAdjacent = true ↔ ev.distanceMeters ≤ 28 ∧ ev.orientationDiffDeg ≤ 85))) :=
  ⟨(evaluateRoadCandidateForEdge_spec testGeo providerEmpty wEdge wCandEmpty).1 (by decide),
   (evaluateRoadCandidateForEdge_spec testGeo providerEmpty wEdge wCand).2.1 (by decide)⟩

/-! ## Viewport query facts -/

/-- Transitivity of the capping comparator. -/
theorem closerToCenter_trans (center : Position) (a b c : ParcelFeature) :
    closerToCenter center a b = true → closerToCenter center b c = true →
    closerToCenter center a c = true := by
  unfold closerToCenter
  simp only [decide_eq_true_eq]
  exact le_trans

/-- Totality of the capping comparator. -/
theorem closerToCenter_total (center : Position) (a b : ParcelFeature) :
    (closerToCenter center a b || closerToCenter center b a) = true := by
  unfold closerToCenter
  simp only [Bool.or_eq_true, decide_eq_true_eq]
  exact le_total _ _

/-- Every pre-cap selected parcel passes the padded-box re-check. -/
theorem selectedParcels_mem (index : ParcelViewportIndex) (bounds : BoundsLike)
    (opts : QueryParcelsOptions) (p : ParcelFeature)
    (h : p ∈ selectedParcels index bounds opts) :
    inPaddedBox (paddedBoxOf bounds opts) p = true := by
  unfold selectedParcels at h
  simp only [List.mem_flatMap] at h
  obtain ⟨x, _, y, _, h⟩ := h
  cases hcell : (index.cells (x, y)) with
  | none => rw [hcell] at h; simp at h
  | some bucket =>
    rw [hcell] at h
    exact (List.mem_filter.mp h).2

/-- C4: every returned parcel lies inside the padded box, the returned count
never exceeds a supplied cap, and when the pre-cap selection exceeds the cap
the result is ordered by ascending squared distance to the query center
(the supplied center, else the padded box's center). -/
theorem queryParcelsInBounds_spec (index : ParcelViewportIndex) (bounds : BoundsLike)
    (opts : QueryParcelsOptions) :
    (∀ p ∈ queryParcelsInBounds index bounds opts,
      inPaddedBox (paddedBoxOf bounds opts) p = true) ∧
    (∀ n, opts.maxFeatures = some n →
      (queryParcelsInBounds index bounds opts).length ≤ n) ∧
    (∀ n, opts.maxFeatures = some n → n < (selectedParcels index bounds opts).length →
      (queryParcelsInBounds index bounds opts).Sorted
        (fun a b => closerToCenter (queryCenterOf bounds opts) a b = true)) := by
  refine ⟨?_, ?_, ?_⟩
  · intro p hp
    apply selectedParcels_mem index bounds opts p
    unfold queryParcelsInBounds at hp
    cases hmf : opts.maxFeatures with
    | none => rw [hmf] at hp; exact hp
    | some n =>
      rw [hmf] at hp
      dsimp only at hp
      by_cases hlen : (selectedParcels index bounds opts).length ≤ n
      · rw [if_pos hlen] at hp; exact hp
      · rw [if_neg hlen] at hp
        exact (List.mergeSort_perm _ _).subset (List.take_subset _ _ hp)
  · intro n hn
    unfold queryParcelsInBounds
    rw [hn]
    dsimp only
    split_ifs with h
    · exact h
    · exact List.length_take_le _ _
  · intro n hn hlt
    unfold queryParcelsInBounds
    rw [hn]
    dsimp only
    rw [if_neg (by omega)]
    have hs := @List.sorted_mergeSort _ (closerToCenter (queryCenterOf bounds opts))
      (closerToCenter_trans _) (closerToCenter_total _) (selectedParcels index bounds opts)
    exact List.Pairwise.sublist (List.take_sublist _ _) hs

/-- Parcel fixture for the viewport witness. -/
def wParcelAt (idStr : String) (x y : ℚ) : ParcelFeature :=
  { geometry := [],
    properties :=
      { id := idStr, siteId := "", taxCoord := "", civicNumber := "",
        streetName := "", fullAddress := "", lon := x, lat := y } }

def wpA : ParcelFeature := wParcelAt "a" 1 1
def wpB : ParcelFeature := wParcelAt "b" 2 2
def wpC : ParcelFeature := wParcelAt "c" 3 3

/-- Index fixture with one occupied cell. -/
def wIndex : ParcelViewportIndex :=
  { cellSizeDeg := 10,
    cells := fun key => if key = (0, 0) then some [wpC, wpA, wpB] else none }

def wBounds : BoundsLike := { west := 0, east := 4, south := 0, north := 4 }

def wOpts : QueryParcelsOptions :=
  { paddingFrac := none, maxFeatures := some 2, center := some (0, 0) }

/-- Witness for C4 at a capped concrete query. -/
theorem queryParcelsInBounds_spec_witness :
    inPaddedBox (paddedBoxOf wBounds wOpts) wpA = true ∧
    (queryParcelsInBounds wIndex wBounds wOpts).length ≤ 2 ∧
    (queryParcelsInBounds wIndex wBounds wOpts).Sorted
      (fun a b => closerToCenter (queryCenterOf wBounds wOpts) a b = true) :=
  ⟨(queryParcelsInBounds_spec wIndex wBounds wOpts).1 wpA (by with_unfolding_all decide),
   (queryParcelsInBounds_spec wIndex wBounds wOpts).2.1 2 rfl,
   (queryParcelsInBounds_spec wIndex wBounds wOpts).2.2 2 rfl (by with_unfolding_all decide)⟩

/-! ## Projections of the analysis record -/

/-- The emitted lot type is the context's lot type. -/
theorem analyzeParcel_lotType (geo : Geo) (provider : Option (EdgeAnalysis → List RawFeature))
    (parcel : ParcelFeature) :
    (analyzeParcel geo provider parcel).lotType =
      lotTypeOf (analysisContext geo provider parcel) := rfl

/-- The emitted confidence is the context's confidence. -/
theorem analyzeParcel_confidence (geo : Geo) (provider : Option (EdgeAnalysis → List RawFeature))
    (parcel : ParcelFeature) :
    (analyzeParcel geo provider parcel).confidence =
      confidenceOf (analysisContext geo provider parcel) := rfl

/-- The emitted edges are the context's edges. -/
theorem analyzeParcel_edges (geo : Geo) (provider : Option (EdgeAnalysis → List RawFeature))
    (parcel : ParcelFeature) :
    (analyzeParcel geo provider parcel).edges =
      (analysisContext geo provider parcel).edges := rfl

/-- C9: analyzeParcel is deterministic — two runs on the same parcel with
pointwise-equal provider responses produce identical `ParcelAnalysis`
records in every field. -/
theorem analyzeParcel_deterministic (geo : Geo) (parcel : ParcelFeature)
    (q1 q2 : EdgeAnalysis → List RawFeature) (h : ∀ e, q1 e = q2 e) :
    analyzeParcel geo (some q1) parcel = analyzeParcel geo (some q2) parcel := by
  have hq : q1 = q2 := funext h
  rw [hq]

/-- Witness for C9 at a concrete provider. -/
theorem analyzeParcel_deterministic_witness :
    analyzeParcel testGeo (some providerC1) testParcel =
      analyzeParcel testGeo (some providerC1) testParcel :=
  analyzeParcel_deterministic testGeo testParcel providerC1 providerC1 (fun _ => rfl)

/-! ## Lot-type priority facts (C1) -/

/-- C1 (amended): whenever the flankage evidence is reliable — the flankage
pass stamped at least one edge, and it is not the case that only the relaxed
retry succeeded while a lane was detected on the opposite edge — the lot
type is Corner Lot, decided before every other lot type. -/
theorem corner_lot_of_reliable_flankage (geo : Geo)
    (provider : Option (EdgeAnalysis → List RawFeature)) (parcel : ParcelFeature)
    (h : hasReliableFlankage (analysisContext geo provider parcel) = true) :
    (analyzeParcel geo provider parcel).lotType = LotType.cornerLot := by
  rw [analyzeParcel_lotType]
  unfold lotTypeOf lotTypeReasonOf determineLotType
  rw [h]
  rfl

/-- C1 counterexample: a run whose flankage pass stamped one edge (count
one) but whose lot type is Standard with Lane, because only the relaxed
flankage retry succeeded and a lane was detected on the opposite edge. -/
theorem flankage_without_corner_counterexample :
    0 < (analysisContext testGeo (some providerC1) testParcel).flankageCount ∧
    (analysisContext testGeo (some providerC1) testParcel).usedRelaxedFlankage = true ∧
    (analyzeParcel testGeo (some providerC1) testParcel).lotType = LotType.standardWithLane ∧
    (analyzeParcel testGeo (some providerC1) testParcel).lotType ≠ LotType.cornerLot := by
  with_unfolding_all decide

/-- Street feature 18 m east of edge 1, strictly adjacent. -/
def oakNearFeat : RawFeature :=
  { geometry := .lineStr [[some 38, some 10], [some 38, some 40]],
    properties := [("name", .str "Oak Ave"), ("class", .str "street")],
    sourceLayer := some "road" }

/-- Provider with a strict frontage street and a strictly adjacent second
street on a side edge. -/
def providerCorner : EdgeAnalysis → List RawFeature := fun e =>
  if e.index = 0 then [mainStreetFeat]
  else if e.index = 1 then [oakNearFeat]
  else []

/-- Witness for C1 at a genuine corner-lot run. -/
theorem corner_lot_of_reliable_flankage_witness :
    (analyzeParcel testGeo (some providerCorner) testParcel).lotType = LotType.cornerLot :=
  corner_lot_of_reliable_flankage testGeo (some providerCorner) testParcel
    (by with_unfolding_all decide)

/-! ## Road-kind classification facts (C8) -/

/-- A name ending in " lane" forces kind lane. -/
theorem classifyRoadKind_suffix_lane (name className sourceLayer : String)
    (h : suffixRoadKindFromName name = some RoadKind.lane) :
    classifyRoadKind name className sourceLayer = RoadKind.lane := by
  unfold classifyRoadKind
  rw [h]

/-- A name ending in " street" forces kind street. -/
theorem classifyRoadKind_suffix_street (name className sourceLayer : String)
    (h : suffixRoadKindFromName name = some RoadKind.street) :
    classifyRoadKind name className sourceLayer = RoadKind.street := by
  unfold classifyRoadKind
  rw [h]

/-- Without a forcing name suffix the kind is lane exactly on the lane-like
condition. -/
theorem classifyRoadKind_no_suffix (name className sourceLayer : String)
    (h : suffixRoadKindFromName name = none) :
    (classifyRoadKind name className sourceLayer = RoadKind.lane ↔
      (explicitLaneNameText (normalizeStreetName name) ||
        laneLikeClassText (toLowerStr (className ++ " " ++ sourceLayer)) ||
        (containsWord "service" (toLowerStr (className ++ " " ++ sourceLayer)) &&
          !explicitStreetNameText (normalizeStreetName name))) = true) := by
  unfold classifyRoadKind
  dsimp only
  rw [h]
  split_ifs with hb
  · simp [hb]
  · simp only [Bool.not_eq_true] at hb
    simp [hb]

/-- Every accepted candidate carries the kind computed by
`classifyRoadKind` from its own name, class and source layer. -/
theorem toRoadCandidate_kind_eq (feature : RawFeature) (c : RoadCandidate)
    (h : toRoadCandidate feature = some c) :
    c.kind = classifyRoadKind c.name c.className c.sourceLayer := by
  unfold toRoadCandidate at h
  split at h
  · exact absurd h (by simp)
  · dsimp only at h
    split at h
    · exact absurd h (by simp)
    · split at h
      · exact absurd h (by simp)
      · split at h
        · exact absurd h (by simp)
        · rw [Option.some.injEq] at h
          subst h
          rfl

/-- C8 (amended): for every accepted candidate, a name ending in " lane"
forces kind lane and a name ending in " street" forces kind street;
otherwise the kind is lane exactly when the name has explicit lane
vocabulary, the class text is lane-like (lane/alley/driveway/access), or
the class says service without explicit street vocabulary in the name — so
an explicit street-suffix name prevents lane only against a service class,
not against a lane-like class. -/
theorem toRoadCandidate_kind_spec (feature : RawFeature) (c : RoadCandidate)
    (h : toRoadCandidate feature = some c) :
    c.kind = classifyRoadKind c.name c.className c.sourceLayer ∧
    (suffixRoadKindFromName c.name = some RoadKind.lane → c.kind = RoadKind.lane) ∧
    (suffixRoadKindFromName c.name = some RoadKind.street → c.kind = RoadKind.street) ∧
    (suffixRoadKindFromName c.name = none →
      (c.kind = RoadKind.lane ↔
        (explicitLaneNameText (normalizeStreetName c.name) ||
          laneLikeClassText (toLowerStr (c.className ++ " " ++ c.sourceLayer)) ||
          (containsWord "service" (toLowerStr (c.className ++ " " ++ c.sourceLayer)) &&
            !explicitStreetNameText (normalizeStreetName c.name))) = true)) := by
  have hck := toRoadCandidate_kind_eq feature c h
  refine ⟨hck, ?_, ?_, ?_⟩
  · intro hs
    rw [hck]
    exact classifyRoadKind_suffix_lane _ _ _ hs
  · intro hs
    rw [hck]
    exact classifyRoadKind_suffix_street _ _ _ hs
  · intro hs
    rw [hck]
    exact classifyRoadKind_no_suffix _ _ _ hs

/-- C8 counterexample: the accepted feature named "Oak Avenue" — a name
ending in the street-type suffix avenue — with class "alley" is classified
lane. -/
theorem street_suffix_name_classified_lane_counterexample :
    ((" avenue".data).isSuffixOf (normalizeStreetName "Oak Avenue").data) = true ∧
    (toRoadCandidate oakAlleyFeat).map RoadCandidate.name = some "Oak Avenue" ∧
    (toRoadCandidate oakAlleyFeat).map RoadCandidate.kind = some RoadKind.lane := by
  with_unfolding_all decide

/-- The candidate produced from `oakAlleyFeat`. -/
def oakAlleyCand : RoadCandidate :=
  { name := "Oak Avenue", kind := .lane, className := "alley", sourceLayer := "road",
    lines := [[(0, 0), (1, 0)]] }

/-- Witness for C8 at the concrete feature. -/
theorem toRoadCandidate_kind_spec_witness :
    oakAlleyCand.kind = RoadKind.lane ↔
      (explicitLaneNameText (normalizeStreetName oakAlleyCand.name) ||
        laneLikeClassText (toLowerStr (oakAlleyCand.className ++ " " ++ oakAlleyCand.sourceLayer)) ||
        (containsWord "service" (toLowerStr (oakAlleyCand.className ++ " " ++ oakAlleyCand.sourceLayer)) &&
          !explicitStreetNameText (normalizeStreetName oakAlleyCand.name))) = true :=
  (toRoadCandidate_kind_spec oakAlleyFeat oakAlleyCand
    (by with_unfolding_all decide)).2.2.2 (by with_unfolding_all decide)

/-! ## Confidence facts (C5) -/

/-- `determineLotType` returns Double Fronting only when its double-fronting
flag is set. -/
theorem determineLotType_df (hf df : Bool) (oe : Option EdgeAnalysis)
    (h : (determineLotType hf df oe).1 = LotType.doubleFronting) : df = true := by
  unfold determineLotType at h
  split_ifs at h <;> simp_all

/-- A double-fronting pass that fires exhibits a relaxed street candidate on
an edge of its input list. -/
theorem doubleFrontingPass_true (edgeMatches : ℕ → List EvaluatedRoadCandidate)
    (hasMatches : ℕ → Bool) (frontPresent : Bool) (oi : Option ℕ)
    (fsn : String) (edges : List EdgeAnalysis)
    (h : (doubleFrontingPass edgeMatches hasMatches frontPresent oi fsn edges).1 = true) :
    ∃ oe ∈ edges, (firstAdjacentStreet (edgeMatches oe.index) true .frontage).isSome = true := by
  unfold doubleFrontingPass at h
  cases hoi : oi with
  | none => rw [hoi] at h; simp at h
  | some i =>
    rw [hoi] at h
    dsimp only at h
    cases hfind : edges.find? (fun e => e.index = i) with
    | none => rw [hfind] at h; simp at h
    | some oe =>
      rw [hfind] at h
      dsimp only at h
      refine ⟨oe, List.mem_of_find?_eq_some hfind, ?_⟩
      by_cases hcond : (frontPresent && hasMatches oe.index) = true
      · rw [if_pos hcond] at h
        cases hfas : firstAdjacentStreet (edgeMatches oe.index) true .frontage with
        | none => rw [hfas] at h; simp at h
        | some c => rfl
      · rw [if_neg hcond] at h
        simp at h

/-- One relaxed street-adjacent edge makes the candidate street edge set
nonempty. -/
theorem candidateStreetEdgesOf_ne_nil (edgeMatches : ℕ → List EvaluatedRoadCandidate)
    (edges : List EdgeAnalysis) (e : EdgeAnalysis) (he : e ∈ edges)
    (h : (firstAdjacentStreet (edgeMatches e.index) true .frontage).isSome = true) :
    candidateStreetEdgesOf edgeMatches edges ≠ [] := by
  unfold candidateStreetEdgesOf
  dsimp only
  split_ifs with hs
  · exact List.ne_nil_of_length_pos hs
  · intro hnil
    have hmem : e ∈ edges.filter
        (fun edge => (firstAdjacentStreet (edgeMatches edge.index) true .frontage).isSome) :=
      List.mem_filter.mpr ⟨he, h⟩
    rw [hnil] at hmem
    simp at hmem

/-- Index preservation of the frontage edge stamp. -/
theorem frontageStampEdge_index (fsm : Option EvaluatedRoadCandidate) (fi : ℕ)
    (e : EdgeAnalysis) : (frontageStampEdge fsm fi e).index = e.index := by
  unfold frontageStampEdge
  by_cases hc : e.index = fi
  · rw [if_pos hc]
    cases fsm <;> rfl
  · rw [if_neg hc]

/-- Frontage stamping preserves the index of every member. -/
theorem mem_stampFrontage (edgeMatches : ℕ → List EvaluatedRoadCandidate) (nps : String)
    (fi : ℕ) (edges : List EdgeAnalysis) (e' : EdgeAnalysis)
    (h : e' ∈ stampFrontage edgeMatches nps fi edges) :
    ∃ e ∈ edges, e.index = e'.index := by
  unfold stampFrontage at h
  obtain ⟨e, he, heq⟩ := List.mem_map.mp h
  exact ⟨e, he, by rw [← heq, frontageStampEdge_index]⟩

/-- Members of the frontage-stamping step come from edges of the input list
with the same index. -/
theorem mem_frontageStampStep (edgeMatches : ℕ → List EvaluatedRoadCandidate)
    (nps : String) (sel : Option EdgeAnalysis) (edges : List EdgeAnalysis)
    (e' : EdgeAnalysis) (h : e' ∈ frontageStampStep edgeMatches nps sel edges) :
    ∃ e ∈ edges, e.index = e'.index := by
  unfold frontageStampStep at h
  cases sel with
  | none => exact ⟨e', h, rfl⟩
  | some fe => exact mem_stampFrontage _ _ _ _ _ h

/-- A double-fronting detection implies a nonempty candidate street edge set
in the same analysis run. -/
theorem analysisContext_df_csE (geo : Geo)
    (provider : Option (EdgeAnalysis → List RawFeature)) (parcel : ParcelFeature)
    (h : (analysisContext geo provider parcel).isDoubleFronting = true) :
    (analysisContext geo provider parcel).candidateStreetEdges ≠ [] := by
  unfold analysisContext at h ⊢
  dsimp only at h ⊢
  obtain ⟨oe, hoe, hsome⟩ := doubleFrontingPass_true _ _ _ _ _ _ h
  obtain ⟨e1, he1, hidx⟩ := mem_frontageStampStep _ _ _ _ _ hoe
  rw [← hidx] at hsome
  exact candidateStreetEdgesOf_ne_nil _ _ e1 he1 hsome

/-- C5 (amended): confidence starts high; with the primary street unmatched
it is medium when some strict-or-relaxed street-adjacent edge existed and
low when none did; whenever the relaxed flankage retry or the relaxed
rear-lane fallback fired the confidence is at most medium (never high); and
with a matched primary street and neither of those fallbacks it stays high —
in particular relaxed frontage selection does not lower the confidence. -/
theorem confidenceOf_spec (geo : Geo)
    (provider : Option (EdgeAnalysis → List RawFeature)) (parcel : ParcelFeature) :
    (((analysisContext geo provider parcel).usedRelaxedFlankage ||
        (analysisContext geo provider parcel).usedRelaxedLane) = true →
      (analyzeParcel geo provider parcel).confidence ≠ Confidence.high) ∧
    ((analysisContext geo provider parcel).frontageMatchedByPrimaryStreet = false →
      (analysisContext geo provider parcel).candidateStreetEdges ≠ [] →
      ((analyzeParcel geo provider parcel).confidence = Confidence.medium ∨
        (analyzeParcel geo provider parcel).confidence = Confidence.low) ∧
      ((analysisContext geo provider parcel).usedRelaxedFlankage = false →
        (analysisContext geo provider parcel).usedRelaxedLane = false →
        (analyzeParcel geo provider parcel).confidence = Confidence.medium)) ∧
    ((analysisContext geo provider parcel).frontageMatchedByPrimaryStreet = false →
      (analysisContext geo provider parcel).candidateStreetEdges = [] →
      (analyzeParcel geo provider parcel).confidence = Confidence.low) ∧
    ((analysisContext geo provider parcel).frontageMatchedByPrimaryStreet = true →
      (analysisContext geo provider parcel).usedRelaxedFlankage = false →
      (analysisContext geo provider parcel).usedRelaxedLane = false →
      (analyzeParcel geo provider parcel).confidence = Confidence.high) := by
  rw [analyzeParcel_confidence]
  refine ⟨?_, ?_, ?_, ?_⟩
  · intro hflag
    unfold confidenceOf
    dsimp only
    rw [hflag]
    simp only [if_true]
    split_ifs <;> simp
  · intro h1 h2
    unfold confidenceOf
    dsimp only
    rw [h1]
    have hlen : 0 < (analysisContext geo provider parcel).candidateStreetEdges.length :=
      List.length_pos.mpr h2
    simp only [Bool.not_false, if_true, if_pos hlen]
    constructor
    · split_ifs <;> simp_all
    · intro h3 h4
      rw [h3, h4]
      split_ifs <;> simp_all
  · intro h1 h2
    unfold confidenceOf
    dsimp only
    rw [h1]
    have hlen : ¬(0 < (analysisContext geo provider parcel).candidateStreetEdges.length) := by
      rw [h2]
      simp
    have hndf : lotTypeOf (analysisContext geo provider parcel) ≠ LotType.doubleFronting :=
      fun hdf => absurd h2 (analysisContext_df_csE geo provider parcel
        (determineLotType_df _ _ _ hdf))
    simp only [Bool.not_false, if_true, if_neg hlen]
    split_ifs <;> simp_all
  · intro h1 h2 h3
    unfold confidenceOf
    dsimp only
    rw [h1, h2, h3]
    split_ifs <;> simp_all

/-- C5 counterexample: a run whose frontage was selected only through the
relaxed name-match fallback (a relaxed-threshold fallback), with no other
fallback in use, still reports confidence high. -/
theorem relaxed_frontage_high_confidence_counterexample :
    (analysisContext testGeo (some providerC5) testParcel).frontageStage =
      FrontageStage.byNameRelaxed ∧
    (analysisContext testGeo (some providerC5) testParcel).usedRelaxedFlankage = false ∧
    (analysisContext testGeo (some providerC5) testParcel).usedRelaxedLane = false ∧
    (analyzeParcel testGeo (some providerC5) testParcel).confidence = Confidence.high := by
  with_unfolding_all decide

/-- Witness for C5: the matched, fallback-free corner run keeps confidence
high. -/
theorem confidenceOf_spec_witness :
    (analyzeParcel testGeo (some providerCorner) testParcel).confidence = Confidence.high :=
  (confidenceOf_spec testGeo (some providerCorner) testParcel).2.2.2
    (by with_unfolding_all decide) (by with_unfolding_all decide)
    (by with_unfolding_all decide)

/-! ## Edge-type tracking through the passes -/

/-- Neither rear nor rear-lane. -/
def notRearType (t : EdgeType) : Prop := t ≠ EdgeType.rear ∧ t ≠ EdgeType.rearLane

/-- Default stamping keeps type and index. -/
theorem defaultStampEdge_pres (em : ℕ → List EvaluatedRoadCandidate) (e : EdgeAnalysis) :
    (defaultStampEdge em e).type = e.type ∧ (defaultStampEdge em e).index = e.index := by
  unfold defaultStampEdge
  cases defaultMatchOf em e <;> exact ⟨rfl, rfl⟩

/-- Frontage stamping keeps the type or sets frontage. -/
theorem frontageStampEdge_type (fsm : Option EvaluatedRoadCandidate) (fi : ℕ)
    (e : EdgeAnalysis) :
    (frontageStampEdge fsm fi e).type = e.type ∨
      (frontageStampEdge fsm fi e).type = EdgeType.frontage := by
  unfold frontageStampEdge
  by_cases hc : e.index = fi
  · rw [if_pos hc]
    right
    cases fsm <;> rfl
  · rw [if_neg hc]
    left
    rfl

/-- Double-fronting stamping keeps index, and keeps the type or sets
frontage. -/
theorem dfStampEdge_pres (c : EvaluatedRoadCandidate) (i : ℕ) (e : EdgeAnalysis) :
    (dfStampEdge c i e).index = e.index ∧
    ((dfStampEdge c i e).type = e.type ∨ (dfStampEdge c i e).type = EdgeType.frontage) := by
  unfold dfStampEdge
  by_cases hc : e.index = i
  · rw [if_pos hc]
    exact ⟨rfl, Or.inr rfl⟩
  · rw [if_neg hc]
    exact ⟨rfl, Or.inl rfl⟩

/-- Flankage stamping keeps index, and keeps the type or sets flankage. -/
theorem flankStampEdge_pres (em : ℕ → List EvaluatedRoadCandidate) (base : String)
    (fi oi : Option ℕ) (ar : Bool) (e : EdgeAnalysis) :
    (flankStampEdge em base fi oi ar e).index = e.index ∧
    ((flankStampEdge em base fi oi ar e).type = e.type ∨
      (flankStampEdge em base fi oi ar e).type = EdgeType.flankage) := by
  unfold flankStampEdge
  cases flankCandidateOf em base fi oi ar e <;> exact ⟨rfl, by first | exact Or.inl rfl | exact Or.inr rfl⟩

/-- Rear-lane stamping: identity off the target index, rear-lane on it. -/
theorem rearLaneStampEdge_cases (l : EvaluatedRoadCandidate) (i : ℕ) (e : EdgeAnalysis) :
    (e.index ≠ i ∧ rearLaneStampEdge l i e = e) ∨
    (e.index = i ∧ (rearLaneStampEdge l i e).type = EdgeType.rearLane ∧
      (rearLaneStampEdge l i e).index = e.index) := by
  unfold rearLaneStampEdge
  by_cases hc : e.index = i
  · right
    rw [if_pos hc]
    dsimp only
    split_ifs <;> exact ⟨hc, rfl, rfl⟩
  · left
    rw [if_neg hc]
    exact ⟨hc, rfl⟩

/-- Rear stamping: identity off the target index, rear on it. -/
theorem rearStampEdge_cases (i : ℕ) (e : EdgeAnalysis) :
    (e.index ≠ i ∧ rearStampEdge i e = e) ∨
    (e.index = i ∧ (rearStampEdge i e).type = EdgeType.rear ∧
      (rearStampEdge i e).index = e.index) := by
  unfold rearStampEdge
  by_cases hc : e.index = i
  · right
    rw [if_pos hc]
    exact ⟨hc, rfl, rfl⟩
  · left
    rw [if_neg hc]
    exact ⟨hc, rfl⟩

/-- Mapping an index-preserving function keeps the index list. -/
theorem indices_map {f : EdgeAnalysis → EdgeAnalysis}
    (hf : ∀ e, (f e).index = e.index) (l : List EdgeAnalysis) :
    (l.map f).map (fun e => e.index) = l.map (fun e => e.index) := by
  rw [List.map_map]
  exact List.map_congr_left (fun e _ => hf e)

/-- Edge types produced by the extractor are all side. -/
theorem toRingEdgesGo_side (geo : Geo) :
    ∀ (k : ℕ) (cs : List Position), ∀ e ∈ toRingEdgesGo geo k cs,
      e.type = EdgeType.side ∧ e.isRoadAdjacent = false ∧ e.roadKind = none
  | _, [], e => by simp [toRingEdgesGo]
  | _, [_], e => by simp [toRingEdgesGo]
  | k, a :: b :: rest, e => by
    intro he
    rcases List.mem_cons.mp he with h | h
    · rw [h]
      exact ⟨rfl, rfl, rfl⟩
    · exact toRingEdgesGo_side geo (k + 1) (b :: rest) e h

/-- All extracted edges are side, not adjacent, with no road kind. -/
theorem toRingEdges_side (geo : Geo) (coords : List Position) :
    ∀ e ∈ toRingEdges geo coords,
      e.type = EdgeType.side ∧ e.isRoadAdjacent = false ∧ e.roadKind = none := by
  unfold toRingEdges
  split_ifs with h
  · simp
  · exact toRingEdgesGo_side geo 0 coords

/-- Extractor indices start at the running counter. -/
theorem toRingEdgesGo_index_ge (geo : Geo) :
    ∀ (k : ℕ) (cs : List Position), ∀ e ∈ toRingEdgesGo geo k cs, k ≤ e.index
  | _, [], e => by simp [toRingEdgesGo]
  | _, [_], e => by simp [toRingEdgesGo]
  | k, a :: b :: rest, e => by
    intro he
    rcases List.mem_cons.mp he with h | h
    · rw [h]
      exact le_refl k
    · have := toRingEdgesGo_index_ge geo (k + 1) (b :: rest) e h
      omega

/-- Extractor indices are pairwise distinct. -/
theorem toRingEdgesGo_pairwise (geo : Geo) :
    ∀ (k : ℕ) (cs : List Position),
      (toRingEdgesGo geo k cs).Pairwise (fun a b => a.index ≠ b.index)
  | _, [] => List.Pairwise.nil
  | _, [_] => List.Pairwise.nil
  | k, a :: b :: rest => by
    refine List.Pairwise.cons ?_ (toRingEdgesGo_pairwise geo (k + 1) (b :: rest))
    intro e he
    have := toRingEdgesGo_index_ge geo (k + 1) (b :: rest) e he
    show k ≠ e.index
    omega

/-- Ring edges have pairwise distinct indices. -/
theorem toRingEdges_pairwise (geo : Geo) (coords : List Position) :
    (toRingEdges geo coords).Pairwise (fun a b => a.index ≠ b.index) := by
  unfold toRingEdges
  split_ifs with h
  · exact List.Pairwise.nil
  · exact toRingEdgesGo_pairwise geo 0 coords

/-- In a list with pairwise distinct indices, members are determined by
their index. -/
theorem pairwise_index_inj {l : List EdgeAnalysis}
    (hp : l.Pairwise (fun a b => a.index ≠ b.index)) :
    ∀ a ∈ l, ∀ b ∈ l, a.index = b.index → a = b := by
  induction l with
  | nil => simp
  | cons x t ih =>
    rcases List.pairwise_cons.mp hp with ⟨hx, ht⟩
    intro a ha b hb heq
    rcases List.mem_cons.mp ha with rfl | ha2 <;> rcases List.mem_cons.mp hb with rfl | hb2
    · rfl
    · exact absurd heq (hx b hb2)
    · exact absurd heq.symm (hx a ha2)
    · exact ih ht a ha2 b hb2 heq

/-! ## Pass-level shape lemmas -/

/-- Rear-lane stamping preserves the index. -/
theorem rearLaneStampEdge_index (l : EvaluatedRoadCandidate) (i : ℕ) (e : EdgeAnalysis) :
    (rearLaneStampEdge l i e).index = e.index := by
  rcases rearLaneStampEdge_cases l i e with ⟨_, h⟩ | ⟨_, _, h⟩
  · rw [h]
  · exact h

/-- Rear stamping preserves the index. -/
theorem rearStampEdge_index (i : ℕ) (e : EdgeAnalysis) :
    (rearStampEdge i e).index = e.index := by
  rcases rearStampEdge_cases i e with ⟨_, h⟩ | ⟨_, _, h⟩
  · rw [h]
  · exact h

/-- Members of the default pass step keep index and type of an input edge. -/
theorem mem_defaultPassStep (em : ℕ → List EvaluatedRoadCandidate)
    (provider : Option (EdgeAnalysis → List RawFeature)) (edges : List EdgeAnalysis)
    (e' : EdgeAnalysis) (h : e' ∈ defaultPassStep em provider edges) :
    ∃ e ∈ edges, e'.index = e.index ∧ e'.type = e.type := by
  unfold defaultPassStep at h
  cases provider with
  | none => exact ⟨e', h, rfl, rfl⟩
  | some q =>
    unfold applyDefaultPass at h
    obtain ⟨e, he, heq⟩ := List.mem_map.mp h
    exact ⟨e, he, by rw [← heq, (defaultStampEdge_pres em e).2],
      by rw [← heq, (defaultStampEdge_pres em e).1]⟩

/-- Members of the frontage stamp step keep index and keep type or gain
frontage. -/
theorem mem_frontageStampStep_type (em : ℕ → List EvaluatedRoadCandidate) (nps : String)
    (sel : Option EdgeAnalysis) (edges : List EdgeAnalysis) (e' : EdgeAnalysis)
    (h : e' ∈ frontageStampStep em nps sel edges) :
    ∃ e ∈ edges, e'.index = e.index ∧
      (e'.type = e.type ∨ e'.type = EdgeType.frontage) := by
  unfold frontageStampStep at h
  cases sel with
  | none => exact ⟨e', h, rfl, Or.inl rfl⟩
  | some fe =>
    unfold stampFrontage at h
    obtain ⟨e, he, heq⟩ := List.mem_map.mp h
    refine ⟨e, he, by rw [← heq, frontageStampEdge_index], ?_⟩
    rw [← heq]
    exact frontageStampEdge_type _ _ e

/-- Members of the double-fronting pass keep index and keep type or gain
frontage. -/
theorem mem_doubleFrontingPass (em : ℕ → List EvaluatedRoadCandidate)
    (hasM : ℕ → Bool) (pres : Bool) (oi : Option ℕ) (fsn : String)
    (edges : List EdgeAnalysis) (e' : EdgeAnalysis)
    (h : e' ∈ (doubleFrontingPass em hasM pres oi fsn edges).2) :
    ∃ e ∈ edges, e'.index = e.index ∧
      (e'.type = e.type ∨ e'.type = EdgeType.frontage) := by
  unfold doubleFrontingPass at h
  cases hoi : oi with
  | none => rw [hoi] at h; exact ⟨e', h, rfl, Or.inl rfl⟩
  | some i =>
    rw [hoi] at h
    dsimp only at h
    cases hfind : edges.find? (fun e => e.index = i) with
    | none => rw [hfind] at h; exact ⟨e', h, rfl, Or.inl rfl⟩
    | some oe =>
      rw [hfind] at h
      dsimp only at h
      by_cases hcond : (pres && hasM oe.index) = true
      · rw [if_pos hcond] at h
        cases hfas : firstAdjacentStreet (em oe.index) true .frontage with
        | none => rw [hfas] at h; exact ⟨e', h, rfl, Or.inl rfl⟩
        | some c =>
          rw [hfas] at h
          dsimp only at h
          split_ifs at h
          · obtain ⟨e, he, heq⟩ := List.mem_map.mp h
            exact ⟨e, he, by rw [← heq, (dfStampEdge_pres c i e).1],
              by rw [← heq]; exact (dfStampEdge_pres c i e).2⟩
          · exact ⟨e', h, rfl, Or.inl rfl⟩
      · rw [if_neg hcond] at h
        exact ⟨e', h, rfl, Or.inl rfl⟩

/-- Members of one flankage sweep keep index and keep type or gain
flankage. -/
theorem mem_applyFlankagePass (em : ℕ → List EvaluatedRoadCandidate) (base : String)
    (fi oi : Option ℕ) (ar : Bool) (edges : List EdgeAnalysis) (e' : EdgeAnalysis)
    (h : e' ∈ (applyFlankagePass em base fi oi ar edges).1) :
    ∃ e ∈ edges, e'.index = e.index ∧
      (e'.type = e.type ∨ e'.type = EdgeType.flankage) := by
  unfold applyFlankagePass at h
  obtain ⟨e, he, heq⟩ := List.mem_map.mp h
  exact ⟨e, he, by rw [← heq, (flankStampEdge_pres em base fi oi ar e).1],
    by rw [← heq]; exact (flankStampEdge_pres em base fi oi ar e).2⟩

/-- Members of the whole flankage step keep index and keep type or gain
flankage. -/
theorem mem_flankStep (em : ℕ → List EvaluatedRoadCandidate) (base : String)
    (fi oi : Option ℕ) (edges : List EdgeAnalysis) (e' : EdgeAnalysis)
    (h : e' ∈ (flankStep em base fi oi edges).1) :
    ∃ e ∈ edges, e'.index = e.index ∧
      (e'.type = e.type ∨ e'.type = EdgeType.flankage) := by
  unfold flankStep at h
  dsimp only at h
  have chain : ∀ es (h2 : e' ∈ (applyFlankagePass em base fi oi true
      (applyFlankagePass em base fi oi false es).1).1),
      ∃ e ∈ es, e'.index = e.index ∧ (e'.type = e.type ∨ e'.type = EdgeType.flankage) := by
    intro es h2
    obtain ⟨e2, he2, hi2, ht2⟩ := mem_applyFlankagePass _ _ _ _ _ _ _ h2
    obtain ⟨e1, he1, hi1, ht1⟩ := mem_applyFlankagePass _ _ _ _ _ _ _ he2
    refine ⟨e1, he1, by rw [hi2, hi1], ?_⟩
    rcases ht2 with h2t | h2t
    · rcases ht1 with h1t | h1t
      · exact Or.inl (by rw [h2t, h1t])
      · exact Or.inr (by rw [h2t, h1t])
    · exact Or.inr h2t
  split_ifs at h
  · exact chain edges h
  · exact chain edges h
  · exact mem_applyFlankagePass _ _ _ _ _ _ _ h

/-- Rear-pass result members that are rear or rear-lane come from the
opposite index, with double-fronting off — provided the input list had no
rear types. -/
theorem rearPass_char (em : ℕ → List EvaluatedRoadCandidate) (oi : Option ℕ)
    (df : Bool) (edges : List EdgeAnalysis)
    (hin : ∀ e ∈ edges, notRearType e.type) :
    ∀ e' ∈ (rearPass em oi df edges).1,
      (e'.type = EdgeType.rear ∨ e'.type = EdgeType.rearLane) →
      df = false ∧ oi = some e'.index := by
  intro e' he' hrear
  unfold rearPass at he'
  cases hoi : oi with
  | none =>
    rw [hoi] at he'
    rcases hrear with h | h
    · exact absurd h (hin e' he').1
    · exact absurd h (hin e' he').2
  | some i =>
    rw [hoi] at he'
    dsimp only at he'
    cases df with
    | true =>
      rw [if_pos rfl] at he'
      rcases hrear with h | h
      · exact absurd h (hin e' he').1
      · exact absurd h (hin e' he').2
    | false =>
      rw [if_neg (by simp)] at he'
      cases hfind : edges.find? (fun e => e.index = i) with
      | none =>
        rw [hfind] at he'
        rcases hrear with h | h
        · exact absurd h (hin e' he').1
        · exact absurd h (hin e' he').2
      | some oe =>
        rw [hfind] at he'
        dsimp only at he'
        cases hlane : firstAdjacentLane (em oe.index) true with
        | some l =>
          rw [hlane] at he'
          dsimp only at he'
          obtain ⟨e, he, heq⟩ := List.mem_map.mp he'
          rcases rearLaneStampEdge_cases l i e with ⟨_, hid⟩ | ⟨hidx, _, hidx2⟩
          · rw [hid] at heq
            subst heq
            rcases hrear with h | h
            · exact absurd h (hin e he).1
            · exact absurd h (hin e he).2
          · refine ⟨rfl, ?_⟩
            rw [← heq, hidx2, hidx]
        | none =>
          rw [hlane] at he'
          dsimp only at he'
          obtain ⟨e, he, heq⟩ := List.mem_map.mp he'
          rcases rearStampEdge_cases i e with ⟨_, hid⟩ | ⟨hidx, _, hidx2⟩
          · rw [hid] at heq
            subst heq
            rcases hrear with h | h
            · exact absurd h (hin e he).1
            · exact absurd h (hin e he).2
          · refine ⟨rfl, ?_⟩
            rw [← heq, hidx2, hidx]

/-! ## Index preservation through the passes -/

/-- The default pass keeps the index list. -/
theorem defaultPassStep_indices (em : ℕ → List EvaluatedRoadCandidate)
    (provider : Option (EdgeAnalysis → List RawFeature)) (edges0 : List EdgeAnalysis) :
    (defaultPassStep em provider edges0).map (fun e => e.index) =
      edges0.map (fun e => e.index) := by
  unfold defaultPassStep
  cases provider with
  | none => rfl
  | some q => exact indices_map (fun e => (defaultStampEdge_pres em e).2) edges0

/-- The frontage stamp keeps the index list. -/
theorem frontageStampStep_indices (em : ℕ → List EvaluatedRoadCandidate) (nps : String)
    (sel : Option EdgeAnalysis) (edges : List EdgeAnalysis) :
    (frontageStampStep em nps sel edges).map (fun e => e.index) =
      edges.map (fun e => e.index) := by
  unfold frontageStampStep
  cases sel with
  | none => rfl
  | some fe => exact indices_map (fun e => frontageStampEdge_index _ _ e) edges

/-- The double-fronting pass keeps the index list. -/
theorem doubleFrontingPass_indices (em : ℕ → List EvaluatedRoadCandidate)
    (hasM : ℕ → Bool) (pres : Bool) (oi : Option ℕ) (fsn : String)
    (edges : List EdgeAnalysis) :
    ((doubleFrontingPass em hasM pres oi fsn edges).2).map (fun e => e.index) =
      edges.map (fun e => e.index) := by
  unfold doubleFrontingPass
  cases oi with
  | none => rfl
  | some i =>
    dsimp only
    cases hfind : edges.find? (fun e => e.index = i) with
    | none => rfl
    | some oe =>
      dsimp only
      by_cases hcond : (pres && hasM oe.index) = true
      · rw [if_pos hcond]
        cases hfas : firstAdjacentStreet (em oe.index) true .frontage with
        | none => rfl
        | some c =>
          dsimp only
          split_ifs
          · exact indices_map (fun e => (dfStampEdge_pres c i e).1) edges
          · rfl
      · rw [if_neg hcond]

/-- One flankage sweep keeps the index list. -/
theorem applyFlankagePass_indices (em : ℕ → List EvaluatedRoadCandidate) (base : String)
    (fi oi : Option ℕ) (ar : Bool) (edges : List EdgeAnalysis) :
    ((applyFlankagePass em base fi oi ar edges).1).map (fun e => e.index) =
      edges.map (fun e => e.index) :=
  indices_map (fun e => (flankStampEdge_pres em base fi oi ar e).1) edges

/-- The whole flankage step keeps the index list. -/
theorem flankStep_indices (em : ℕ → List EvaluatedRoadCandidate) (base : String)
    (fi oi : Option ℕ) (edges : List EdgeAnalysis) :
    ((flankStep em base fi oi edges).1).map (fun e => e.index) =
      edges.map (fun e => e.index) := by
  unfold flankStep
  dsimp only
  split_ifs
  · rw [applyFlankagePass_indices, applyFlankagePass_indices]
  · rw [applyFlankagePass_indices, applyFlankagePass_indices]
  · exact applyFlankagePass_indices em base fi oi false edges

/-- The rear pass keeps the index list. -/
theorem rearPass_indices (em : ℕ → List EvaluatedRoadCandidate) (oi : Option ℕ)
    (df : Bool) (edges : List EdgeAnalysis) :
    ((rearPass em oi df edges).1).map (fun e => e.index) =
      edges.map (fun e => e.index) := by
  unfold rearPass
  cases oi with
  | none => rfl
  | some i =>
    dsimp only
    cases df with
    | true => rw [if_pos rfl]
    | false =>
      rw [if_neg (by simp)]
      cases hfind : edges.find? (fun e => e.index = i) with
      | none => rfl
      | some oe =>
        dsimp only
        cases hlane : firstAdjacentLane (em oe.index) true with
        | some l => exact indices_map (fun e => rearLaneStampEdge_index l i e) edges
        | none => exact indices_map (fun e => rearStampEdge_index i e) edges

/-- The pass chain from the extractor to the flankage step keeps the index
list. -/
theorem pipeline_indices (em : ℕ → List EvaluatedRoadCandidate)
    (provider2 : Option (EdgeAnalysis → List RawFeature)) (nps base fsn : String)
    (sel : Option EdgeAnalysis) (hasM : ℕ → Bool) (pres : Bool)
    (fi oi oi2 : Option ℕ) (edges0 : List EdgeAnalysis) :
    (((flankStep em base fi oi2 (doubleFrontingPass em hasM pres oi fsn
        (frontageStampStep em nps sel
          (defaultPassStep em provider2 edges0))).2).1).map (fun e => e.index)) =
      edges0.map (fun e => e.index) := by
  rw [flankStep_indices, doubleFrontingPass_indices, frontageStampStep_indices,
    defaultPassStep_indices]

/-- The pass chain keeps pairwise-distinct indices. -/
theorem pipeline_pairwise (em : ℕ → List EvaluatedRoadCandidate)
    (provider2 : Option (EdgeAnalysis → List RawFeature)) (nps base fsn : String)
    (sel : Option EdgeAnalysis) (hasM : ℕ → Bool) (pres : Bool)
    (fi oi oi2 : Option ℕ) (edges0 : List EdgeAnalysis)
    (h0 : edges0.Pairwise (fun a b => a.index ≠ b.index)) :
    ((flankStep em base fi oi2 (doubleFrontingPass em hasM pres oi fsn
        (frontageStampStep em nps sel
          (defaultPassStep em provider2 edges0))).2).1).Pairwise
      (fun a b => a.index ≠ b.index) := by
  have h1 : ((edges0.map (fun e => e.index)).Pairwise (fun a b => a ≠ b)) :=
    List.pairwise_map.mpr h0
  rw [← pipeline_indices em provider2 nps base fsn sel hasM pres fi oi oi2 edges0] at h1
  exact List.pairwise_map.mp h1

/-- The pass chain never produces a rear or rear-lane type from a rear-free
input. -/
theorem pipeline_notRear (em : ℕ → List EvaluatedRoadCandidate)
    (provider2 : Option (EdgeAnalysis → List RawFeature)) (nps base fsn : String)
    (sel : Option EdgeAnalysis) (hasM : ℕ → Bool) (pres : Bool)
    (fi oi oi2 : Option ℕ) (edges0 : List EdgeAnalysis)
    (h0 : ∀ e ∈ edges0, notRearType e.type) :
    ∀ e' ∈ (flankStep em base fi oi2 (doubleFrontingPass em hasM pres oi fsn
        (frontageStampStep em nps sel
          (defaultPassStep em provider2 edges0))).2).1,
      notRearType e'.type := by
  intro e' h
  obtain ⟨e3, he3, _, ht3⟩ := mem_flankStep _ _ _ _ _ _ h
  obtain ⟨e2, he2, _, ht2⟩ := mem_doubleFrontingPass _ _ _ _ _ _ _ he3
  obtain ⟨e1, he1, _, ht1⟩ := mem_frontageStampStep_type _ _ _ _ _ he2
  obtain ⟨e0, he0, _, ht0⟩ := mem_defaultPassStep _ _ _ _ he1
  rcases ht3 with h3 | h3
  · rcases ht2 with h2 | h2
    · rcases ht1 with h1 | h1
      · rw [h3, h2, h1, ht0]
        exact h0 e0 he0
      · rw [h3, h2, h1]
        exact ⟨fun hx => EdgeType.noConfusion hx, fun hx => EdgeType.noConfusion hx⟩
    · rw [h3, h2]
      exact ⟨fun hx => EdgeType.noConfusion hx, fun hx => EdgeType.noConfusion hx⟩
  · rw [h3]
    exact ⟨fun hx => EdgeType.noConfusion hx, fun hx => EdgeType.noConfusion hx⟩

/-- Rear uniqueness over one rear pass: every rear-typed member pins the
double-fronting flag and the opposite index, and distinct-index inputs keep
at most one rear-typed edge. -/
theorem rearPass_rear_unique (em : ℕ → List EvaluatedRoadCandidate) (oi0 : Option ℕ)
    (df0 : Bool) (fl : List EdgeAnalysis)
    (htype : ∀ e ∈ fl, notRearType e.type)
    (hpair : fl.Pairwise (fun a b => a.index ≠ b.index)) :
    (∀ e ∈ (rearPass em oi0 df0 fl).1,
        (e.type = EdgeType.rear ∨ e.type = EdgeType.rearLane) →
        df0 = false ∧ oi0 = some e.index) ∧
    (∀ e1 ∈ (rearPass em oi0 df0 fl).1, ∀ e2 ∈ (rearPass em oi0 df0 fl).1,
        (e1.type = EdgeType.rear ∨ e1.type = EdgeType.rearLane) →
        (e2.type = EdgeType.rear ∨ e2.type = EdgeType.rearLane) → e1 = e2) := by
  constructor
  · exact fun e he hr => rearPass_char em oi0 df0 fl htype e he hr
  · intro e1 h1 e2 h2 hr1 hr2
    have hd1 := rearPass_char em oi0 df0 fl htype e1 h1 hr1
    have hd2 := rearPass_char em oi0 df0 fl htype e2 h2 hr2
    have hpair2 : ((rearPass em oi0 df0 fl).1).Pairwise (fun a b => a.index ≠ b.index) := by
      have hm : ((fl.map (fun e => e.index)).Pairwise (fun a b => a ≠ b)) :=
        List.pairwise_map.mpr hpair
      rw [← rearPass_indices em oi0 df0 fl] at hm
      exact List.pairwise_map.mp hm
    exact pairwise_index_inj hpair2 e1 h1 e2 h2 (Option.some.inj (hd1.2.symm.trans hd2.2))

/-- C10: in every `ParcelAnalysis` returned by `analyzeParcel`, every edge
typed rear or rear-lane is at the identified opposite index with the
double-fronting flag off — so under double-fronting no rear-typed edge
exists at all — and at most one edge carries a rear or rear-lane type. -/
theorem rear_edges_unique (geo : Geo) (provider : Option (EdgeAnalysis → List RawFeature))
    (parcel : ParcelFeature) :
    (∀ e ∈ (analyzeParcel geo provider parcel).edges,
        (e.type = EdgeType.rear ∨ e.type = EdgeType.rearLane) →
        (analysisContext geo provider parcel).isDoubleFronting = false ∧
        (analysisContext geo provider parcel).oppositeIndex = some e.index) ∧
    (∀ e1 ∈ (analyzeParcel geo provider parcel).edges,
      ∀ e2 ∈ (analyzeParcel geo provider parcel).edges,
        (e1.type = EdgeType.rear ∨ e1.type = EdgeType.rearLane) →
        (e2.type = EdgeType.rear ∨ e2.type = EdgeType.rearLane) → e1 = e2) := by
  rw [analyzeParcel_edges]
  unfold analysisContext
  dsimp only
  exact rearPass_rear_unique _ _ _ _
    (pipeline_notRear _ _ _ _ _ _ _ _ _ _ _ _ (fun e he => by
      rw [(toRingEdges_side geo _ e he).1]
      exact ⟨fun hx => EdgeType.noConfusion hx, fun hx => EdgeType.noConfusion hx⟩))
    (pipeline_pairwise _ _ _ _ _ _ _ _ _ _ _ _ (toRingEdges_pairwise geo _))

theorem rear_edges_unique_witness :
    ∃ e ∈ (analyzeParcel testGeo (some providerC1) testParcel).edges,
      (e.type = EdgeType.rear ∨ e.type = EdgeType.rearLane) ∧
      (analysisContext testGeo (some providerC1) testParcel).isDoubleFronting = false ∧
      (analysisContext testGeo (some providerC1) testParcel).oppositeIndex = some e.index := by
  have hmem : ∃ e ∈ (analyzeParcel testGeo (some providerC1) testParcel).edges,
      e.type = EdgeType.rear ∨ e.type = EdgeType.rearLane := by
    with_unfolding_all decide
  obtain ⟨e, he, hr⟩ := hmem
  exact ⟨e, he, hr,
    (rear_edges_unique testGeo (some providerC1) testParcel).1 e he hr⟩

/-! ## The no-features scenario -/

/-- A foldl whose step never moves keeps its accumulator. -/
theorem foldl_fixed {α β : Type _} (f : β → α → β) :
    ∀ (l : List α) (acc : β), (∀ b a, a ∈ l → f b a = b) → l.foldl f acc = acc := by
  intro l
  induction l with
  | nil => intro acc _; rfl
  | cons x t ih =>
    intro acc h
    rw [List.foldl_cons, h acc x (List.mem_cons_self x t)]
    exact ih acc (fun b a ha => h b a (List.mem_cons_of_mem x ha))

/-- With an empty feature query, every edge evaluates to no candidates. -/
theorem matchesAtFun_empty (geo : Geo) (q : EdgeAnalysis → List RawFeature)
    (edges0 : List EdgeAnalysis) (hq : ∀ e, q e = []) :
    ∀ i, matchesAtFun geo (some q) edges0 i = [] := by
  intro i
  unfold matchesAtFun
  dsimp only
  cases hfind : edges0.find? (fun e => e.index = i) with
  | none => rfl
  | some e =>
    dsimp only
    have hquery : queryRoadCandidatesForEdge q e = [] := by
      unfold queryRoadCandidatesForEdge
      rw [hq e]
      rfl
    unfold findEvaluatedRoadCandidatesForEdge
    dsimp only
    rw [hquery]
    rfl

theorem firstAdjacentStreet_nil (ar : Bool) (rm : StreetRelaxMode) :
    firstAdjacentStreet [] ar rm = none := rfl

theorem firstAdjacentStreetByName_nil (ns : String) (ar : Bool) (rm : StreetRelaxMode) :
    firstAdjacentStreetByName [] ns ar rm = none := by
  unfold firstAdjacentStreetByName
  split_ifs <;> rfl

theorem firstAdjacentLane_nil (ar : Bool) : firstAdjacentLane [] ar = none := rfl

theorem firstDifferentStreetCandidate_nil (base : String) (ar : Bool) :
    firstDifferentStreetCandidate [] base ar = none := rfl

/-- Empty matches: the nearest-edge selector finds nothing. -/
theorem selectNearestEdgeByStreetCandidate_empty {em : ℕ → List EvaluatedRoadCandidate}
    (hem : ∀ i, em i = []) (edges : List EdgeAnalysis) (ns : String)
    (ar : Bool) (rm : StreetRelaxMode) :
    selectNearestEdgeByStreetCandidate edges em ns ar rm = none := by
  unfold selectNearestEdgeByStreetCandidate
  dsimp only
  rw [foldl_fixed]
  · rfl
  · intro b a _
    dsimp only
    rw [hem a.index]
    by_cases hns : ns ≠ ""
    · rw [if_pos hns, firstAdjacentStreetByName_nil]
    · rw [if_neg hns, firstAdjacentStreet_nil]

/-- Empty matches: no candidate street edges. -/
theorem candidateStreetEdgesOf_empty {em : ℕ → List EvaluatedRoadCandidate}
    (hem : ∀ i, em i = []) (edges : List EdgeAnalysis) :
    candidateStreetEdgesOf em edges = [] := by
  unfold candidateStreetEdgesOf
  have h1 : ∀ (ar : Bool), edges.filter
      (fun edge => (firstAdjacentStreet (em edge.index) ar .frontage).isSome) = [] := by
    intro ar
    rw [List.filter_eq_nil]
    intro a _
    rw [hem a.index, firstAdjacentStreet_nil]
    simp
  rw [h1, h1]
  rfl

/-- Empty matches, longest edge present: the frontage cascade falls back to
it. -/
theorem selectFrontage_empty_some {em : ℕ → List EvaluatedRoadCandidate}
    (hem : ∀ i, em i = []) (nps : String) (edges1 csE : List EdgeAnalysis)
    (le : EdgeAnalysis) (hle : longestEdgeOf edges1 = some le) :
    selectFrontage em nps edges1 csE = (some le, false, FrontageStage.longestEdge) := by
  unfold selectFrontage
  simp only [selectNearestEdgeByStreetCandidate_empty hem, ite_self]
  rw [hle]

/-- Empty matches, no edges at all: the cascade reports no frontage. -/
theorem selectFrontage_empty_none {em : ℕ → List EvaluatedRoadCandidate}
    (hem : ∀ i, em i = []) (nps : String) (edges1 csE : List EdgeAnalysis)
    (hle : longestEdgeOf edges1 = none) :
    selectFrontage em nps edges1 csE = (none, false, FrontageStage.noFrontage) := by
  unfold selectFrontage
  simp only [selectNearestEdgeByStreetCandidate_empty hem, ite_self]
  rw [hle]

/-- Empty matches: the cascade never reports a primary-name match. -/
theorem selectFrontage_empty_matched {em : ℕ → List EvaluatedRoadCandidate}
    (hem : ∀ i, em i = []) (nps : String) (edges1 csE : List EdgeAnalysis) :
    (selectFrontage em nps edges1 csE).2.1 = false := by
  cases hle : longestEdgeOf edges1 with
  | none => rw [selectFrontage_empty_none hem nps edges1 csE hle]
  | some le => rw [selectFrontage_empty_some hem nps edges1 csE le hle]

/-- Empty matches: the chosen frontage is the longest-edge fallback. -/
theorem selectFrontage_empty_sel {em : ℕ → List EvaluatedRoadCandidate}
    (hem : ∀ i, em i = []) (nps : String) (edges1 csE : List EdgeAnalysis) :
    (selectFrontage em nps edges1 csE).1 = longestEdgeOf edges1 := by
  cases hle : longestEdgeOf edges1 with
  | none => rw [selectFrontage_empty_none hem nps edges1 csE hle]
  | some le => rw [selectFrontage_empty_some hem nps edges1 csE le hle]

/-- Empty matches: no default match. -/
theorem defaultMatchOf_empty {em : ℕ → List EvaluatedRoadCandidate}
    (hem : ∀ i, em i = []) (e : EdgeAnalysis) : defaultMatchOf em e = none := by
  unfold defaultMatchOf
  dsimp only
  simp only [hem]
  rfl

/-- Empty matches: the default pass only writes the diagnostic. -/
theorem defaultStampEdge_empty {em : ℕ → List EvaluatedRoadCandidate}
    (hem : ∀ i, em i = []) (e : EdgeAnalysis) :
    defaultStampEdge em e =
      { e with debug := "No road candidate found near edge centerline." } := by
  unfold defaultStampEdge
  rw [defaultMatchOf_empty hem]

/-- Empty matches: no frontage street re-match. -/
theorem frontageStreetMatchOf_empty {em : ℕ → List EvaluatedRoadCandidate}
    (hem : ∀ i, em i = []) (nps : String) (fi : ℕ) :
    frontageStreetMatchOf em nps fi = none := by
  unfold frontageStreetMatchOf
  simp only [hem]
  rw [firstAdjacentStreetByName_nil, firstAdjacentStreet_nil]

/-- Frontage stamping without a street match only sets the type. -/
theorem frontageStampEdge_none (fi : ℕ) (e : EdgeAnalysis) :
    frontageStampEdge none fi e =
      (if e.index = fi then { e with type := EdgeType.frontage } else e) := by
  unfold frontageStampEdge
  split_ifs <;> rfl

/-- Empty matches: no double fronting. -/
theorem doubleFrontingPass_empty {em : ℕ → List EvaluatedRoadCandidate}
    (hem : ∀ i, em i = []) (hasM : ℕ → Bool) (pres : Bool) (oi : Option ℕ)
    (fsn : String) (edges : List EdgeAnalysis) :
    doubleFrontingPass em hasM pres oi fsn edges = (false, edges) := by
  unfold doubleFrontingPass
  cases oi with
  | none => rfl
  | some i =>
    dsimp only
    cases hfind : edges.find? (fun e => e.index = i) with
    | none => rfl
    | some oe =>
      dsimp only
      by_cases hcond : (pres && hasM oe.index) = true
      · rw [if_pos hcond, hem oe.index, firstAdjacentStreet_nil]
      · rw [if_neg hcond]

/-- Empty matches: no flankage candidate anywhere. -/
theorem flankCandidateOf_empty {em : ℕ → List EvaluatedRoadCandidate}
    (hem : ∀ i, em i = []) (base : String) (fi oi : Option ℕ) (ar : Bool)
    (e : EdgeAnalysis) : flankCandidateOf em base fi oi ar e = none := by
  unfold flankCandidateOf
  split_ifs
  · rfl
  · rw [hem e.index, firstDifferentStreetCandidate_nil]

/-- Empty matches: flankage stamping is the identity. -/
theorem flankStampEdge_empty {em : ℕ → List EvaluatedRoadCandidate}
    (hem : ∀ i, em i = []) (base : String) (fi oi : Option ℕ) (ar : Bool)
    (e : EdgeAnalysis) : flankStampEdge em base fi oi ar e = e := by
  unfold flankStampEdge
  rw [flankCandidateOf_empty hem]

/-- Empty matches: one flankage sweep changes nothing and counts zero. -/
theorem applyFlankagePass_empty {em : ℕ → List EvaluatedRoadCandidate}
    (hem : ∀ i, em i = []) (base : String) (fi oi : Option ℕ) (ar : Bool)
    (edges : List EdgeAnalysis) :
    applyFlankagePass em base fi oi ar edges = (edges, 0) := by
  unfold applyFlankagePass
  have h1 : edges.map (flankStampEdge em base fi oi ar) = edges := by
    have hc : ∀ e ∈ edges, flankStampEdge em base fi oi ar e = id e :=
      fun e _ => flankStampEdge_empty hem base fi oi ar e
    rw [List.map_congr_left hc, List.map_id]
  have h2 : edges.countP
      (fun e => (flankCandidateOf em base fi oi ar e).isSome) = 0 := by
    rw [List.countP_eq_zero]
    intro a _
    rw [flankCandidateOf_empty hem]
    simp
  rw [h1, h2]

/-- Empty matches: the whole flankage step is inert. -/
theorem flankStep_empty {em : ℕ → List EvaluatedRoadCandidate}
    (hem : ∀ i, em i = []) (base : String) (fi oi : Option ℕ)
    (edges : List EdgeAnalysis) :
    flankStep em base fi oi edges = (edges, 0, false) := by
  unfold flankStep
  dsimp only
  rw [applyFlankagePass_empty hem]
  dsimp only
  rw [applyFlankagePass_empty hem]
  rfl

/-- Empty matches: the rear pass never uses the relaxed lane fallback. -/
theorem rearPass_empty_flag {em : ℕ → List EvaluatedRoadCandidate}
    (hem : ∀ i, em i = []) (oi : Option ℕ) (df : Bool)
    (edges : List EdgeAnalysis) : (rearPass em oi df edges).2 = false := by
  unfold rearPass
  cases oi with
  | none => rfl
  | some i =>
    dsimp only
    cases df with
    | true => rw [if_pos rfl]
    | false =>
      rw [if_neg (by simp)]
      cases hfind : edges.find? (fun e => e.index = i) with
      | none => rfl
      | some oe =>
        dsimp only
        rw [hem oe.index, firstAdjacentLane_nil]

/-- Empty matches: rear-pass members are unchanged, except the opposite
edge, which is stamped plain rear. -/
theorem rearPass_empty_mem {em : ℕ → List EvaluatedRoadCandidate}
    (hem : ∀ i, em i = []) (oi : Option ℕ) (df : Bool)
    (edges : List EdgeAnalysis) (e' : EdgeAnalysis)
    (h : e' ∈ (rearPass em oi df edges).1) :
    e' ∈ edges ∨ ∃ e ∈ edges, oi = some e'.index ∧ e'.type = EdgeType.rear ∧
      e'.index = e.index ∧ e'.isRoadAdjacent = e.isRoadAdjacent := by
  unfold rearPass at h
  cases hoi : oi with
  | none =>
    rw [hoi] at h
    exact Or.inl h
  | some i =>
    rw [hoi] at h
    dsimp only at h
    cases df with
    | true =>
      rw [if_pos rfl] at h
      exact Or.inl h
    | false =>
      rw [if_neg (by simp)] at h
      cases hfind : edges.find? (fun e => e.index = i) with
      | none =>
        rw [hfind] at h
        exact Or.inl h
      | some oe =>
        rw [hfind] at h
        dsimp only at h
        rw [hem oe.index, firstAdjacentLane_nil] at h
        dsimp only at h
        obtain ⟨e, he, heq⟩ := List.mem_map.mp h
        unfold rearStampEdge at heq
        by_cases hei : e.index = i
        · rw [if_pos hei] at heq
          refine Or.inr ⟨e, he, ?_, ?_, ?_, ?_⟩
          · rw [← heq]
            show some i = some e.index
            rw [hei]
          · rw [← heq]
          · rw [← heq]
          · rw [← heq]
        · rw [if_neg hei] at heq
          rw [← heq]
          exact Or.inl he

/-- Empty matches: default-pass members keep index, type, adjacency. -/
theorem defaultPass_empty_mem {em : ℕ → List EvaluatedRoadCandidate}
    (hem : ∀ i, em i = []) (provider2 : Option (EdgeAnalysis → List RawFeature))
    (edges0 : List EdgeAnalysis) (e' : EdgeAnalysis)
    (h : e' ∈ defaultPassStep em provider2 edges0) :
    ∃ e ∈ edges0, e'.index = e.index ∧ e'.type = e.type ∧
      e'.isRoadAdjacent = e.isRoadAdjacent := by
  unfold defaultPassStep at h
  cases provider2 with
  | none => exact ⟨e', h, rfl, rfl, rfl⟩
  | some q =>
    unfold applyDefaultPass at h
    obtain ⟨e, he, heq⟩ := List.mem_map.mp h
    rw [defaultStampEdge_empty hem] at heq
    exact ⟨e, he, by rw [← heq], by rw [← heq], by rw [← heq]⟩

/-- Empty matches: members after the frontage stamp keep index and
adjacency, and keep their type unless they are the chosen frontage edge. -/
theorem frontStep_empty_mem {em : ℕ → List EvaluatedRoadCandidate}
    (hem : ∀ i, em i = []) (nps : String) (sel : Option EdgeAnalysis)
    (provider2 : Option (EdgeAnalysis → List RawFeature))
    (edges0 : List EdgeAnalysis) (e' : EdgeAnalysis)
    (h : e' ∈ frontageStampStep em nps sel (defaultPassStep em provider2 edges0)) :
    ∃ e ∈ edges0, e'.index = e.index ∧ e'.isRoadAdjacent = e.isRoadAdjacent ∧
      (e'.type = e.type ∨
        (sel.map (·.index) = some e'.index ∧ e'.type = EdgeType.frontage)) := by
  unfold frontageStampStep at h
  cases sel with
  | none =>
    obtain ⟨e, he, hidx, htype, hadj⟩ := defaultPass_empty_mem hem provider2 edges0 e' h
    exact ⟨e, he, hidx, hadj, Or.inl htype⟩
  | some fe =>
    unfold stampFrontage at h
    obtain ⟨e1, he1, heq⟩ := List.mem_map.mp h
    rw [frontageStreetMatchOf_empty hem, frontageStampEdge_none] at heq
    obtain ⟨e, he, hidx, htype, hadj⟩ := defaultPass_empty_mem hem provider2 edges0 e1 he1
    by_cases hei : e1.index = fe.index
    · rw [if_pos hei] at heq
      refine ⟨e, he, ?_, ?_, Or.inr ⟨?_, ?_⟩⟩
      · rw [← heq]
        exact hidx
      · rw [← heq]
        exact hadj
      · rw [← heq]
        show some fe.index = some e1.index
        rw [hei]
      · rw [← heq]
    · rw [if_neg hei] at heq
      rw [← heq]
      exact ⟨e, he, hidx, hadj, Or.inl htype⟩

/-- C2: with a provider returning no features for any edge, `analyzeParcel`
reports lot type Standard without Lane with low confidence, but the edges are
not all side: each edge keeps type side except the longest-edge frontage
fallback, typed frontage, and the identified opposite edge, typed rear. -/
theorem analyzeParcel_no_features (geo : Geo) (q : EdgeAnalysis → List RawFeature)
    (parcel : ParcelFeature) (hq : ∀ e, q e = []) :
    (analyzeParcel geo (some q) parcel).lotType = LotType.standardWithoutLane ∧
    (analyzeParcel geo (some q) parcel).confidence = Confidence.low ∧
    ∀ e ∈ (analyzeParcel geo (some q) parcel).edges,
      e.type = EdgeType.side ∨
      ((analysisContext geo (some q) parcel).frontageIndex = some e.index ∧
        e.type = EdgeType.frontage) ∨
      ((analysisContext geo (some q) parcel).oppositeIndex = some e.index ∧
        e.type = EdgeType.rear) := by
  have hem := matchesAtFun_empty geo q (toRingEdges geo (parcel.geometry.headD [])) hq
  have hdf : (analysisContext geo (some q) parcel).isDoubleFronting = false := by
    unfold analysisContext
    dsimp only
    rw [doubleFrontingPass_empty hem]
  have hfc : (analysisContext geo (some q) parcel).flankageCount = 0 := by
    unfold analysisContext
    dsimp only
    rw [flankStep_empty hem]
  have hurf : (analysisContext geo (some q) parcel).usedRelaxedFlankage = false := by
    unfold analysisContext
    dsimp only
    rw [flankStep_empty hem]
  have hurl : (analysisContext geo (some q) parcel).usedRelaxedLane = false := by
    unfold analysisContext
    dsimp only
    rw [rearPass_empty_flag hem]
  have hmat : (analysisContext geo (some q) parcel).frontageMatchedByPrimaryStreet
      = false := by
    unfold analysisContext
    dsimp only
    rw [selectFrontage_empty_matched hem]
  have hcse : (analysisContext geo (some q) parcel).candidateStreetEdges = [] := by
    unfold analysisContext
    dsimp only
    rw [candidateStreetEdgesOf_empty hem]
  have hmem : ∀ e' ∈ (analysisContext geo (some q) parcel).edges,
      e'.isRoadAdjacent = false ∧
      (e'.type = EdgeType.side ∨
        ((analysisContext geo (some q) parcel).frontageIndex = some e'.index ∧
          e'.type = EdgeType.frontage) ∨
        ((analysisContext geo (some q) parcel).oppositeIndex = some e'.index ∧
          e'.type = EdgeType.rear)) := by
    unfold analysisContext
    dsimp only
    intro e' he'
    rw [doubleFrontingPass_empty hem] at he'
    dsimp only at he'
    rw [flankStep_empty hem] at he'
    dsimp only at he'
    rcases rearPass_empty_mem hem _ _ _ _ he' with h2 | ⟨e, he, hoi, htype, hidx, hadj⟩
    · rcases frontStep_empty_mem hem _ _ _ _ _ h2 with ⟨e0, he0, hidx0, hadj0, ht0⟩
      refine ⟨by rw [hadj0]; exact (toRingEdges_side geo _ e0 he0).2.1, ?_⟩
      rcases ht0 with ht | ⟨hsel, ht⟩
      · exact Or.inl (by rw [ht]; exact (toRingEdges_side geo _ e0 he0).1)
      · exact Or.inr (Or.inl ⟨hsel, ht⟩)
    · rcases frontStep_empty_mem hem _ _ _ _ _ he with ⟨e0, he0, _, hadj0, _⟩
      exact ⟨by rw [hadj, hadj0]; exact (toRingEdges_side geo _ e0 he0).2.1,
        Or.inr (Or.inr ⟨hoi, htype⟩)⟩
  have hopp : oppositeLaneAdjacent
      (oppositeEdgeOf (analysisContext geo (some q) parcel)) = false := by
    unfold oppositeEdgeOf
    cases hoi : (analysisContext geo (some q) parcel).oppositeIndex with
    | none => rfl
    | some i =>
      dsimp only
      cases hfind : (analysisContext geo (some q) parcel).edges.find?
          (fun e => e.index = i) with
      | none => rfl
      | some oe =>
        unfold oppositeLaneAdjacent
        dsimp only
        rw [(hmem oe (List.mem_of_find?_eq_some hfind)).1]
        rfl
  have hrel : hasReliableFlankage (analysisContext geo (some q) parcel) = false := by
    unfold hasReliableFlankage
    rw [hfc]
    rfl
  have hlot : lotTypeOf (analysisContext geo (some q) parcel)
      = LotType.standardWithoutLane := by
    unfold lotTypeOf lotTypeReasonOf
    rw [hrel, hdf]
    unfold determineLotType
    rw [hopp]
    rfl
  have hconf : confidenceOf (analysisContext geo (some q) parcel) = Confidence.low := by
    unfold confidenceOf
    dsimp only
    rw [hmat, hcse, hlot, hurf, hurl]
    rfl
  refine ⟨?_, ?_, ?_⟩
  · rw [analyzeParcel_lotType]
    exact hlot
  · rw [analyzeParcel_confidence]
    exact hconf
  · rw [analyzeParcel_edges]
    intro e' he'
    exact (hmem e' he').2

/-- With no features at all, the returned edges are not all of type side:
the frontage fallback and the rear pass still stamp edges. -/
theorem not_all_side_counterexample :
    ¬ ∀ e ∈ (analyzeParcel testGeo (some providerEmpty) testParcel).edges,
      e.type = EdgeType.side := by
  with_unfolding_all decide

theorem analyzeParcel_no_features_witness :
    (analyzeParcel testGeo (some providerEmpty) testParcel).lotType
      = LotType.standardWithoutLane ∧
    (analyzeParcel testGeo (some providerEmpty) testParcel).confidence
      = Confidence.low ∧
    ∀ e ∈ (analyzeParcel testGeo (some providerEmpty) testParcel).edges,
      e.type = EdgeType.side ∨
      ((analysisContext testGeo (some providerEmpty) testParcel).frontageIndex
          = some e.index ∧ e.type = EdgeType.frontage) ∨
      ((analysisContext testGeo (some providerEmpty) testParcel).oppositeIndex
          = some e.index ∧ e.type = EdgeType.rear) :=
  analyzeParcel_no_features testGeo providerEmpty testParcel (fun _ => rfl)
